import Mathlib

/-!
# Verification development for `humble_quadrotor_simulator_base.hpp`

A shallow embedding of `QuadrotorSimulator::QuadrotorSimulatorBase` (constructor, `run`,
`stateToOdomMsg`, `quadToImuMsg`, `tfBroadcast`).

Numbers: every C++ `double` (and every clock reading) is embedded as an element of an
arbitrary linearly ordered field `K`, so arithmetic is exact; the definitions are executable
at `K = ℚ`.  Rounding, infinities and NaN are outside this embedding.
-/

namespace QuadrotorSimulator

/-! ## Linear algebra containers (the Eigen types used by the source) -/

/-- Embedding of `Eigen::Vector3d` (also used for the `x, y, z` message triples). -/
structure Vec3 (K : Type) where
  x : K
  y : K
  z : K

/-- Embedding of `Eigen::Matrix3d`; `mij` is the coefficient in row `i`, column `j`. -/
structure Mat3 (K : Type) where
  m00 : K
  m01 : K
  m02 : K
  m10 : K
  m11 : K
  m12 : K
  m20 : K
  m21 : K
  m22 : K

/-- Embedding of `Eigen::Array4d`. -/
structure Array4 (K : Type) where
  a0 : K
  a1 : K
  a2 : K
  a3 : K

/-- Embedding of `Eigen::Quaterniond` (also used for the orientation message field). -/
structure Quat (K : Type) where
  w : K
  x : K
  y : K
  z : K

section Algebra

variable {K : Type} [LinearOrderedField K]

/-- Vector sum, `a + b`. -/
def Vec3.add (a b : Vec3 K) : Vec3 K := ⟨a.x + b.x, a.y + b.y, a.z + b.z⟩

/-- Vector difference, `a - b` (the effect of `a -= b`). -/
def Vec3.sub (a b : Vec3 K) : Vec3 K := ⟨a.x - b.x, a.y - b.y, a.z - b.z⟩

/-- Scalar times vector, `s * a`. -/
def Vec3.smul (s : K) (a : Vec3 K) : Vec3 K := ⟨s * a.x, s * a.y, s * a.z⟩

/-- Vector over scalar, `a / s`. -/
def Vec3.divScalar (a : Vec3 K) (s : K) : Vec3 K := ⟨a.x / s, a.y / s, a.z / s⟩

/-- Matrix transpose, `M.transpose()`. -/
def Mat3.transpose (M : Mat3 K) : Mat3 K :=
  ⟨M.m00, M.m10, M.m20,
   M.m01, M.m11, M.m21,
   M.m02, M.m12, M.m22⟩

/-- Matrix times vector, `M * a`. -/
def Mat3.mulVec (M : Mat3 K) (a : Vec3 K) : Vec3 K :=
  ⟨M.m00 * a.x + M.m01 * a.y + M.m02 * a.z,
   M.m10 * a.x + M.m11 * a.y + M.m12 * a.z,
   M.m20 * a.x + M.m21 * a.y + M.m22 * a.z⟩

/-- Matrix times matrix, `A * B`. -/
def Mat3.mul (A B : Mat3 K) : Mat3 K :=
  ⟨A.m00 * B.m00 + A.m01 * B.m10 + A.m02 * B.m20,
   A.m00 * B.m01 + A.m01 * B.m11 + A.m02 * B.m21,
   A.m00 * B.m02 + A.m01 * B.m12 + A.m02 * B.m22,
   A.m10 * B.m00 + A.m11 * B.m10 + A.m12 * B.m20,
   A.m10 * B.m01 + A.m11 * B.m11 + A.m12 * B.m21,
   A.m10 * B.m02 + A.m11 * B.m12 + A.m12 * B.m22,
   A.m20 * B.m00 + A.m21 * B.m10 + A.m22 * B.m20,
   A.m20 * B.m01 + A.m21 * B.m11 + A.m22 * B.m21,
   A.m20 * B.m02 + A.m21 * B.m12 + A.m22 * B.m22⟩

/-- Scalar times matrix, `s * M`. -/
def Mat3.smul (s : K) (M : Mat3 K) : Mat3 K :=
  ⟨s * M.m00, s * M.m01, s * M.m02,
   s * M.m10, s * M.m11, s * M.m12,
   s * M.m20, s * M.m21, s * M.m22⟩

/-- Diagonal matrix with the given diagonal, `d.asDiagonal()`. -/
def Vec3.asDiagonal (d : Vec3 K) : Mat3 K :=
  ⟨d.x, 0, 0,
   0, d.y, 0,
   0, 0, d.z⟩

/-- The matrix as a Mathlib matrix, used to state orthonormality and the determinant. -/
def Mat3.toMatrix (M : Mat3 K) : Matrix (Fin 3) (Fin 3) K :=
  !![M.m00, M.m01, M.m02; M.m10, M.m11, M.m12; M.m20, M.m21, M.m22]

/-- Coefficient-wise square, `a.square()`. -/
def Array4.square (a : Array4 K) : Array4 K := ⟨a.a0 * a.a0, a.a1 * a.a1, a.a2 * a.a2, a.a3 * a.a3⟩

/-- Sum of the coefficients, `a.sum()`. -/
def Array4.sum (a : Array4 K) : K := a.a0 + a.a1 + a.a2 + a.a3

/-- Squared norm of the coefficient vector, `q.squaredNorm()`. -/
def Quat.squaredNorm (q : Quat K) : K := q.w * q.w + q.x * q.x + q.y * q.y + q.z * q.z

/-- Embedding of `Eigen::Quaterniond::normalize()`: it normalizes the coefficient vector, and Eigen's
`MatrixBase::normalize` divides by the square root of the squared norm only when the squared
norm is positive (a zero vector is left unchanged).  The square root is a parameter. -/
def Quat.normalize (sqrt : K → K) (q : Quat K) : Quat K :=
  let z := q.squaredNorm
  if z > 0 then ⟨q.w / sqrt z, q.x / sqrt z, q.y / sqrt z, q.z / sqrt z⟩ else q

/-- Embedding of `Eigen::Quaterniond::matrix()` (`toRotationMatrix()`), with Eigen's intermediate
products `tx, ty, tz, twx, ...` kept. -/
def Quat.matrix (q : Quat K) : Mat3 K :=
  let tx := 2 * q.x
  let ty := 2 * q.y
  let tz := 2 * q.z
  let twx := tx * q.w
  let twy := ty * q.w
  let twz := tz * q.w
  let txx := tx * q.x
  let txy := ty * q.x
  let txz := tz * q.x
  let tyy := ty * q.y
  let tyz := tz * q.y
  let tzz := tz * q.z
  ⟨1 - (tyy + tzz), txy - twz, txz + twy,
   txy + twz, 1 - (txx + tzz), tyz - twx,
   txz - twy, tyz + twx, 1 - (txx + tyy)⟩

end Algebra

/-! ## The simulated vehicle (`Quadrotor`, declared in `Quadrotor.hpp`) -/

/-- Embedding of `Quadrotor::State`: position `x`, velocity `v`, orientation `R`, angular
velocity `omega`, realized rotor speeds `motor_rpm`. -/
structure State (K : Type) where
  x : Vec3 K
  v : Vec3 K
  R : Mat3 K
  omega : Vec3 K
  motor_rpm : Array4 K

/-- Modelled from the spec: the class `Quadrotor` is declared in `Quadrotor.hpp`, which is
not among the sources.  Following the data model of the specification it holds the
rigid-body state, the physical constants of the vehicle configuration (mass, diagonal
inertia, gravity, propeller radius, thrust coefficient, arm length, motor time constant,
min/max rotor speed, drag coefficient), the disturbance vectors and the rotor input.  Each
`getX` of the source is the field projection. -/
structure Quadrotor (K : Type) where
  state : State K
  mass : K
  inertia : Mat3 K
  gravity : K
  prop_radius : K
  kf : K
  arm_length : K
  motor_time_constant : K
  min_rpm : K
  max_rpm : K
  drag_coefficient : K
  external_force : Vec3 K
  external_moment : Vec3 K

/-! ## Messages -/

/-- Embedding of `std_msgs::msg::Header` (time stamp and frame identifier). -/
structure Header (K : Type) where
  stamp : K
  frame_id : String

/-- Embedding of `sensor_msgs::msg::Imu`, restricted to the fields the source writes. -/
structure Imu (K : Type) where
  header : Header K
  orientation : Quat K
  angular_velocity : Vec3 K
  linear_acceleration : Vec3 K

section Sensor

variable {K : Type} [LinearOrderedField K]

/-- The ground threshold, the literal `1e-4` of `quadToImuMsg`. -/
def groundThreshold : K := 1 / 10000

/-- Embedding of `QuadrotorSimulatorBase::quadToImuMsg`.  `quaternionOfMatrix` stands for
the Eigen constructor `Eigen::Quaterniond q(state.R)`.  The message is passed by reference
in the source, so the updated message is returned; its header is not touched. -/
def quadToImuMsg (quaternionOfMatrix : Mat3 K → Quat K) (quad : Quadrotor K) (imu : Imu K) :
    Imu K :=
  let state := quad.state
  let q := quaternionOfMatrix state.R
  let kf := quad.kf
  let m := quad.mass
  let external_force := quad.external_force
  let g := quad.gravity
  let thrust := kf * state.motor_rpm.square.sum
  let acc : Vec3 K :=
    if state.x.z < groundThreshold then
      state.R.transpose.mulVec ((external_force.divScalar m).add ⟨0, 0, g⟩)
    else
      let acc0 := (Vec3.smul (thrust / m) ⟨0, 0, 1⟩).add
        ((state.R.transpose.mulVec external_force).divScalar m)
      if quad.drag_coefficient ≠ 0 then
        let drag_coefficient := quad.drag_coefficient
        let mass := quad.mass
        let P : Mat3 K := ⟨1, 0, 0, 0, 1, 0, 0, 0, 0⟩
        acc0.sub ((((Mat3.smul (drag_coefficient / mass) P).mul state.R.transpose)).mulVec state.v)
      else
        acc0
  { header := imu.header
    orientation := ⟨q.w, q.x, q.y, q.z⟩
    angular_velocity := ⟨state.omega.x, state.omega.y, state.omega.z⟩
    linear_acceleration := ⟨acc.x, acc.y, acc.z⟩ }

/-- The airborne acceleration in the words of the specification:
`(kf * Σ rpm_i² / m) * (0,0,1) + Rᵀ f / m - (kd / m) * diag(1,1,0) * Rᵀ v`. -/
def airborneAccSpec (kf m kd : K) (f v : Vec3 K) (R : Mat3 K) (rpm : Array4 K) : Vec3 K :=
  ((Vec3.smul (kf * (rpm.a0 ^ 2 + rpm.a1 ^ 2 + rpm.a2 ^ 2 + rpm.a3 ^ 2) / m) ⟨0, 0, 1⟩).add
      ((R.transpose.mulVec f).divScalar m)).sub
    (Vec3.smul (kd / m) ((Vec3.asDiagonal ⟨1, 1, 0⟩).mulVec (R.transpose.mulVec v)))

/-- The airborne acceleration without the drag term: the first two terms alone,
`(kf * Σ rpm_i² / m) * (0,0,1) + Rᵀ f / m`. -/
def airborneAccNoDragSpec (kf m : K) (f : Vec3 K) (R : Mat3 K) (rpm : Array4 K) : Vec3 K :=
  (Vec3.smul (kf * (rpm.a0 ^ 2 + rpm.a1 ^ 2 + rpm.a2 ^ 2 + rpm.a3 ^ 2) / m) ⟨0, 0, 1⟩).add
    ((R.transpose.mulVec f).divScalar m)

/-- The ground acceleration in the words of the specification, `Rᵀ * (f / m + (0,0,g))`,
written out in coordinates. -/
def groundAccSpec (m g : K) (f : Vec3 K) (R : Mat3 K) : Vec3 K :=
  ⟨R.m00 * (f.x / m) + R.m10 * (f.y / m) + R.m20 * (f.z / m + g),
   R.m01 * (f.x / m) + R.m11 * (f.y / m) + R.m21 * (f.z / m + g),
   R.m02 * (f.x / m) + R.m12 * (f.y / m) + R.m22 * (f.z / m + g)⟩

/-- Squared magnitude of the horizontal `(x, y)` part of a vector.  Magnitudes are
non-negative, so they are ordered as their squares are. -/
def Vec3.horizontalNormSq (a : Vec3 K) : K := a.x * a.x + a.y * a.y

/-- Dot product of the horizontal `(x, y)` parts of two vectors. -/
def Vec3.horizontalDot (a b : Vec3 K) : K := a.x * b.x + a.y * b.y

/-- The quadrotor with its drag coefficient replaced (`setDragCoefficient`). -/
def Quadrotor.withDrag (quad : Quadrotor K) (kd : K) : Quadrotor K :=
  { quad with drag_coefficient := kd }

/-- The quadrotor with its vertical position `x(2)` replaced. -/
def Quadrotor.withHeight (quad : Quadrotor K) (z : K) : Quadrotor K :=
  { quad with state := { quad.state with x := ⟨quad.state.x.x, quad.state.x.y, z⟩ } }

/-- A concrete vehicle over `ℚ`: identity attitude, unit mass, at the given height, with the
given drag coefficient, external force and velocity; rotor speeds `(1, 2, 3, 4)`. -/
def sampleQuad (z kd : ℚ) (f v : Vec3 ℚ) : Quadrotor ℚ :=
  { state := ⟨⟨0, 0, z⟩, v, ⟨1, 0, 0, 0, 1, 0, 0, 0, 1⟩, ⟨0, 0, 0⟩, ⟨1, 2, 3, 4⟩⟩
    mass := 2, inertia := ⟨1, 0, 0, 0, 1, 0, 0, 0, 1⟩, gravity := 10, prop_radius := 1, kf := 3
    arm_length := 1, motor_time_constant := 1, min_rpm := 0, max_rpm := 10
    drag_coefficient := kd, external_force := f, external_moment := ⟨0, 0, 0⟩ }

/-- A concrete stand-in for `Eigen::Quaterniond q(state.R)` over `ℚ`. -/
def sampleQuaternionOfMatrix : Mat3 ℚ → Quat ℚ := fun _ => ⟨1, 0, 0, 0⟩

/-- A concrete message over `ℚ` with empty header. -/
def sampleImu : Imu ℚ := ⟨⟨0, ""⟩, ⟨1, 0, 0, 0⟩, ⟨0, 0, 0⟩, ⟨0, 0, 0⟩⟩

end Sensor

/-! ## Remaining messages -/

/-- Embedding of `nav_msgs::msg::Odometry`, restricted to the fields the source writes:
`pose.pose.position`, `pose.pose.orientation`, `twist.twist.linear`, `twist.twist.angular`. -/
structure Odometry (K : Type) where
  header : Header K
  child_frame_id : String
  pose_position : Vec3 K
  pose_orientation : Quat K
  twist_linear : Vec3 K
  twist_angular : Vec3 K

/-- Embedding of `kr_mav_msgs::msg::OutputData`, restricted to the fields the source
writes. -/
structure OutputData (K : Type) where
  header : Header K
  orientation : Quat K
  angular_velocity : Vec3 K
  linear_acceleration : Vec3 K
  motor_rpm : Array4 K

/-- Embedding of `geometry_msgs::msg::TransformStamped`. -/
structure TransformStamped (K : Type) where
  header : Header K
  child_frame_id : String
  translation : Vec3 K
  rotation : Quat K

/-- Embedding of `QuadrotorSimulatorBase::ControlInput` (`double rpm[4]`). -/
structure ControlInput (K : Type) where
  rpm : Array4 K

/-! ## The simulator object -/

/-- Data members of `QuadrotorSimulatorBase<T, U>`; publishers, subscriptions and the
transform broadcaster appear as the events of `Event` below. -/
structure QuadrotorSimulatorBase (K U : Type) where
  quad_ : Quadrotor K
  command_ : U
  simulation_rate_ : K
  odom_rate_ : K
  quad_name_ : String
  world_frame_id_ : String

/-- What the class takes from outside the source file: the two pure virtual methods
(`cmd_callback` acting on `command_`, `getControl`), the message `std::make_shared<T>()`,
the methods `Quadrotor::setInput` and `Quadrotor::step` of `Quadrotor.hpp`, and the Eigen
constructor `Eigen::Quaterniond q(R)`.  Every theorem quantifies over all of them. -/
structure Hooks (K T U : Type) where
  emptyMsg : T
  cmd_callback : U → T → U
  getControl : Quadrotor K → U → ControlInput K
  setInput : Quadrotor K → K → K → K → K → Quadrotor K
  step : Quadrotor K → K → Quadrotor K
  quaternionOfMatrix : Mat3 K → Quat K

/-- The externally supplied parameter values: `none` when the parameter has no value. -/
structure Params (K : Type) where
  rate_simulation : Option K
  rate_odom : Option K
  world_frame_id : Option String
  quadrotor_name : Option String
  mass : Option K
  Ixx : Option K
  Iyy : Option K
  Izz : Option K
  gravity : Option K
  prop_radius : Option K
  thrust_coefficient : Option K
  arm_length : Option K
  motor_time_constant : Option K
  min_rpm : Option K
  max_rpm : Option K
  drag_coefficient : Option K
  initial_position_x : Option K
  initial_position_y : Option K
  initial_position_z : Option K
  initial_orientation_w : Option K
  initial_orientation_x : Option K
  initial_orientation_y : Option K
  initial_orientation_z : Option K

/-- The exceptions the constructor can raise. -/
inductive SimError where
  | assertionFailed
  | parameterNotSet (name : String)
  deriving DecidableEq, Repr

/-- Embedding of `declare_parameter(name, default)` then `get_parameter(name, var)`: the supplied
value when there is one, the declared default otherwise. -/
def declareAndGet {α : Type} (value : Option α) (default : α) : α := value.getD default

/-- Embedding of `get_parameter(name).as_double()` for a parameter without default: the
supplied value, or an exception when there is none. -/
def getParameterAsDouble {K : Type} (name : String) (value : Option K) : Except SimError K :=
  match value with
  | some v => Except.ok v
  | none => Except.error (SimError.parameterNotSet name)

/-- Embedding of `rcpputils::assert_true(condition)` with assertions enabled (`NDEBUG` not
defined): raises `AssertionException` when the condition is false. -/
def assert_true (condition : Bool) : Except SimError Unit :=
  if condition then Except.ok () else Except.error SimError.assertionFailed

section Simulator

variable {K T U : Type} [LinearOrderedField K]

/-- Modelled from the spec: `Quadrotor::setMass` (of `Quadrotor.hpp`, not among the
sources) stores the constant; so do the nine setters that follow. -/
def Quadrotor.setMass (q : Quadrotor K) (v : K) : Quadrotor K := { q with mass := v }

/-- Modelled from the spec: `Quadrotor::setInertia` stores the inertia matrix. -/
def Quadrotor.setInertia (q : Quadrotor K) (v : Mat3 K) : Quadrotor K := { q with inertia := v }

/-- Modelled from the spec: `Quadrotor::setGravity` stores the gravity magnitude. -/
def Quadrotor.setGravity (q : Quadrotor K) (v : K) : Quadrotor K := { q with gravity := v }

/-- Modelled from the spec: `Quadrotor::setPropRadius` stores the propeller radius. -/
def Quadrotor.setPropRadius (q : Quadrotor K) (v : K) : Quadrotor K :=
  { q with prop_radius := v }

/-- Modelled from the spec: `Quadrotor::setPropellerThrustCoefficient` stores `kf`. -/
def Quadrotor.setPropellerThrustCoefficient (q : Quadrotor K) (v : K) : Quadrotor K :=
  { q with kf := v }

/-- Modelled from the spec: `Quadrotor::setArmLength` stores the arm length. -/
def Quadrotor.setArmLength (q : Quadrotor K) (v : K) : Quadrotor K := { q with arm_length := v }

/-- Modelled from the spec: `Quadrotor::setMotorTimeConstant` stores the time constant. -/
def Quadrotor.setMotorTimeConstant (q : Quadrotor K) (v : K) : Quadrotor K :=
  { q with motor_time_constant := v }

/-- Modelled from the spec: `Quadrotor::setMinRPM` stores the minimum rotor speed. -/
def Quadrotor.setMinRPM (q : Quadrotor K) (v : K) : Quadrotor K := { q with min_rpm := v }

/-- Modelled from the spec: `Quadrotor::setMaxRPM` stores the maximum rotor speed. -/
def Quadrotor.setMaxRPM (q : Quadrotor K) (v : K) : Quadrotor K := { q with max_rpm := v }

/-- Modelled from the spec: `Quadrotor::setDragCoefficient` stores the drag coefficient. -/
def Quadrotor.setDragCoefficient (q : Quadrotor K) (v : K) : Quadrotor K :=
  { q with drag_coefficient := v }

/-- Modelled from the spec: `Quadrotor::getState` returns the rigid-body state. -/
def Quadrotor.getState (q : Quadrotor K) : State K := q.state

/-- Modelled from the spec: `Quadrotor::setState` replaces the rigid-body state. -/
def Quadrotor.setState (q : Quadrotor K) (s : State K) : Quadrotor K := { q with state := s }

/-- Embedding of the constructor `QuadrotorSimulatorBase::QuadrotorSimulatorBase`, from the
first parameter read on.  `quad0` and `command0` are the default-constructed members
`quad_` and `command_`; `sqrt` is the square root used by `normalize`.  An exception is an
`Except.error`, in which case no object exists. -/
def QuadrotorSimulatorBase.construct (sqrt : K → K) (quad0 : Quadrotor K) (command0 : U)
    (p : Params K) : Except SimError (QuadrotorSimulatorBase K U) := do
  let simulation_rate_ := declareAndGet p.rate_simulation 1000
  assert_true (decide (simulation_rate_ > 0))
  let odom_rate_ := declareAndGet p.rate_odom 100
  let world_frame_id_ := declareAndGet p.world_frame_id "simulator"
  let quad_name_ := declareAndGet p.quadrotor_name "quadrotor"
  let quad_ := quad0
  let quad_ := quad_.setMass (← getParameterAsDouble "mass" p.mass)
  let Ixx ← getParameterAsDouble "Ixx" p.Ixx
  let Iyy ← getParameterAsDouble "Iyy" p.Iyy
  let Izz ← getParameterAsDouble "Izz" p.Izz
  let quad_ := quad_.setInertia (Vec3.asDiagonal ⟨Ixx, Iyy, Izz⟩)
  let quad_ := quad_.setGravity (← getParameterAsDouble "gravity" p.gravity)
  let quad_ := quad_.setPropRadius (← getParameterAsDouble "prop_radius" p.prop_radius)
  let quad_ := quad_.setPropellerThrustCoefficient
    (← getParameterAsDouble "thrust_coefficient" p.thrust_coefficient)
  let quad_ := quad_.setArmLength (← getParameterAsDouble "arm_length" p.arm_length)
  let quad_ := quad_.setMotorTimeConstant
    (← getParameterAsDouble "motor_time_constant" p.motor_time_constant)
  let quad_ := quad_.setMinRPM (← getParameterAsDouble "min_rpm" p.min_rpm)
  let quad_ := quad_.setMaxRPM (← getParameterAsDouble "max_rpm" p.max_rpm)
  let quad_ := quad_.setDragCoefficient
    (← getParameterAsDouble "drag_coefficient" p.drag_coefficient)
  let initial_pos : Vec3 K :=
    ⟨declareAndGet p.initial_position_x 0, declareAndGet p.initial_position_y 0,
     declareAndGet p.initial_position_z 0⟩
  let initial_q : Quat K :=
    ⟨declareAndGet p.initial_orientation_w 1, declareAndGet p.initial_orientation_x 0,
     declareAndGet p.initial_orientation_y 0, declareAndGet p.initial_orientation_z 0⟩
  let initial_q := initial_q.normalize sqrt
  let state := quad_.getState
  let state := { state with x := ⟨initial_pos.x, initial_pos.y, initial_pos.z⟩ }
  let state := { state with R := initial_q.matrix }
  let quad_ := quad_.setState state
  return { quad_ := quad_
           command_ := command0
           simulation_rate_ := simulation_rate_
           odom_rate_ := odom_rate_
           quad_name_ := quad_name_
           world_frame_id_ := world_frame_id_ }

/-- Embedding of `QuadrotorSimulatorBase::stateToOdomMsg`; the message is passed by
reference in the source, so the updated message is returned. -/
def stateToOdomMsg (quaternionOfMatrix : Mat3 K → Quat K) (state : State K)
    (odom : Odometry K) : Odometry K :=
  let q := quaternionOfMatrix state.R
  { odom with
    pose_position := ⟨state.x.x, state.x.y, state.x.z⟩
    pose_orientation := ⟨q.w, q.x, q.y, q.z⟩
    twist_linear := ⟨state.v.x, state.v.y, state.v.z⟩
    twist_angular := ⟨state.omega.x, state.omega.y, state.omega.z⟩ }

/-- Embedding of `QuadrotorSimulatorBase::tfBroadcast`: the transform handed to
`tf_broadcaster_.sendTransform`. -/
def tfBroadcast (odom_msg : Odometry K) : TransformStamped K :=
  { header := { stamp := odom_msg.header.stamp, frame_id := odom_msg.header.frame_id }
    child_frame_id := odom_msg.child_frame_id
    translation := ⟨odom_msg.pose_position.x, odom_msg.pose_position.y, odom_msg.pose_position.z⟩
    rotation := odom_msg.pose_orientation }

end Simulator

/-- The observable actions of `run`, in program order. -/
inductive Event (K U : Type) where
  | getControl (command : U)
  | setInput (rpm : Array4 K)
  | step (dt : K)
  | publishOdom (msg : Odometry K)
  | sendTransform (ts : TransformStamped K)
  | publishImu (msg : Imu K)
  | publishOutputData (msg : OutputData K)

/-- What one pass of the `while` loop receives from outside: the messages delivered to
`cmd_callback` while spinning, and the clock reading `tnow = this->now()`. -/
structure Tick (K T : Type) where
  msgs : List T
  tnow : K

/-- The object together with the local variables of `run` that live across iterations. -/
structure LoopState (K U : Type) where
  self : QuadrotorSimulatorBase K U
  odom_msg : Odometry K
  imu_msg : Imu K
  output_data_msg : OutputData K
  simulation_dt : K
  odom_pub_duration : K
  next_odom_pub_time : K

section Run

variable {K T U : Type} [LinearOrderedField K]

/-- A default-constructed header. -/
def Header.default : Header K := ⟨0, ""⟩

/-- A default-constructed `nav_msgs::msg::Odometry`. -/
def Odometry.default : Odometry K :=
  ⟨Header.default, "", ⟨0, 0, 0⟩, ⟨1, 0, 0, 0⟩, ⟨0, 0, 0⟩, ⟨0, 0, 0⟩⟩

/-- A default-constructed `sensor_msgs::msg::Imu`. -/
def Imu.default : Imu K := ⟨Header.default, ⟨1, 0, 0, 0⟩, ⟨0, 0, 0⟩, ⟨0, 0, 0⟩⟩

/-- A default-constructed `kr_mav_msgs::msg::OutputData`. -/
def OutputData.default : OutputData K :=
  ⟨Header.default, ⟨1, 0, 0, 0⟩, ⟨0, 0, 0⟩, ⟨0, 0, 0⟩, ⟨0, 0, 0, 0⟩⟩

/-- The part of `run` before the `while` loop; `t0` is the clock reading that initializes
`next_odom_pub_time`. -/
def runInit (h : Hooks K T U) (sim : QuadrotorSimulatorBase K U) (t0 : K) : LoopState K U :=
  let self := { sim with command_ := h.cmd_callback sim.command_ h.emptyMsg }
  let odom_msg : Odometry K := Odometry.default
  let imu_msg : Imu K := Imu.default
  let output_data_msg : OutputData K := OutputData.default
  let odom_msg := { odom_msg with header := { odom_msg.header with frame_id := self.world_frame_id_ } }
  let odom_msg := { odom_msg with child_frame_id := self.quad_name_ }
  let imu_msg := { imu_msg with header := { imu_msg.header with frame_id := self.quad_name_ } }
  let output_data_msg :=
    { output_data_msg with header := { output_data_msg.header with frame_id := self.quad_name_ } }
  let simulation_dt := 1 / self.simulation_rate_
  let odom_pub_duration := 1 / self.odom_rate_
  let next_odom_pub_time := t0
  { self := self
    odom_msg := odom_msg
    imu_msg := imu_msg
    output_data_msg := output_data_msg
    simulation_dt := simulation_dt
    odom_pub_duration := odom_pub_duration
    next_odom_pub_time := next_odom_pub_time }

/-- One pass of the body of the `while` loop of `run`: the new state and the actions
performed, in order.  Spinning is embedded as the delivery of the pending messages
`tick.msgs` to `cmd_callback`, after which control returns to the loop body; `r.sleep()`
changes nothing that is embedded. -/
def iterate (h : Hooks K T U) (st : LoopState K U) (tick : Tick K T) :
    LoopState K U × List (Event K U) :=
  let command_ := tick.msgs.foldl h.cmd_callback st.self.command_
  let control := h.getControl st.self.quad_ command_
  let quad_ := h.setInput st.self.quad_ control.rpm.a0 control.rpm.a1 control.rpm.a2
    control.rpm.a3
  let quad_ := h.step quad_ st.simulation_dt
  let self := { st.self with command_ := command_, quad_ := quad_ }
  let stepping : List (Event K U) :=
    [Event.getControl command_, Event.setInput control.rpm, Event.step st.simulation_dt]
  let tnow := tick.tnow
  if tnow ≥ st.next_odom_pub_time then
    let next_odom_pub_time := st.next_odom_pub_time + st.odom_pub_duration
    let state := quad_.getState
    let odom_msg := stateToOdomMsg h.quaternionOfMatrix state st.odom_msg
    let odom_msg := { odom_msg with header := { odom_msg.header with stamp := tnow } }
    let ts := tfBroadcast odom_msg
    let imu_msg := quadToImuMsg h.quaternionOfMatrix quad_ st.imu_msg
    let imu_msg := { imu_msg with header := { imu_msg.header with stamp := tnow } }
    let output_data_msg : OutputData K :=
      { header := { st.output_data_msg.header with stamp := tnow }
        orientation := imu_msg.orientation
        angular_velocity := imu_msg.angular_velocity
        linear_acceleration := imu_msg.linear_acceleration
        motor_rpm := ⟨state.motor_rpm.a0, state.motor_rpm.a1, state.motor_rpm.a2,
          state.motor_rpm.a3⟩ }
    ({ st with
        self := self
        odom_msg := odom_msg
        imu_msg := imu_msg
        output_data_msg := output_data_msg
        next_odom_pub_time := next_odom_pub_time },
      stepping ++ [Event.publishOdom odom_msg, Event.sendTransform ts,
        Event.publishImu imu_msg, Event.publishOutputData output_data_msg])
  else
    ({ st with self := self }, stepping)

/-- The `while` loop of `run` over the given passes: final state and all actions. -/
def runLoop (h : Hooks K T U) (st : LoopState K U) :
    List (Tick K T) → LoopState K U × List (Event K U)
  | [] => (st, [])
  | tick :: rest =>
    let r := iterate h st tick
    let r2 := runLoop h r.1 rest
    (r2.1, r.2 ++ r2.2)

/-- Embedding of `QuadrotorSimulatorBase::run`, for a loop that makes one pass per element
of `ticks` before `rclcpp::ok()` turns false. -/
def run (h : Hooks K T U) (sim : QuadrotorSimulatorBase K U) (t0 : K) (ticks : List (Tick K T)) :
    LoopState K U × List (Event K U) :=
  runLoop h (runInit h sim t0) ticks

end Run

/-- Number of simulation steps among the actions. -/
def stepCount {K U : Type} : List (Event K U) → Nat
  | [] => 0
  | Event.step _ :: rest => stepCount rest + 1
  | _ :: rest => stepCount rest

/-- Number of odometry publications among the actions (each publication emits one odometry
record first). -/
def publicationCount {K U : Type} : List (Event K U) → Nat
  | [] => 0
  | Event.publishOdom _ :: rest => publicationCount rest + 1
  | _ :: rest => publicationCount rest

section Configuration

variable {K : Type} [LinearOrderedField K]

/-- The identity matrix. -/
def Mat3.identity : Mat3 K := ⟨1, 0, 0, 0, 1, 0, 0, 0, 1⟩

/-- The configured initial orientation quaternion `(w, x, y, z)`, defaults `(1, 0, 0, 0)`
included, as the constructor reads it before normalizing. -/
def Params.initialOrientation (p : Params K) : Quat K :=
  ⟨declareAndGet p.initial_orientation_w 1, declareAndGet p.initial_orientation_x 0,
   declareAndGet p.initial_orientation_y 0, declareAndGet p.initial_orientation_z 0⟩

/-- The configured initial position `(x, y, z)`, defaults `(0, 0, 0)` included. -/
def Params.initialPosition (p : Params K) : Vec3 K :=
  ⟨declareAndGet p.initial_position_x 0, declareAndGet p.initial_position_y 0,
   declareAndGet p.initial_position_z 0⟩

/-- All the physical constants the constructor reads without a default have a value. -/
def Params.constantsSet (p : Params K) : Bool :=
  p.mass.isSome && p.Ixx.isSome && p.Iyy.isSome && p.Izz.isSome && p.gravity.isSome &&
    p.prop_radius.isSome && p.thrust_coefficient.isSome && p.arm_length.isSome &&
    p.motor_time_constant.isSome && p.min_rpm.isSome && p.max_rpm.isSome &&
    p.drag_coefficient.isSome

/-- A concrete configuration over `ℚ`: the given simulation rate and initial orientation,
every physical constant supplied, everything else left to its default. -/
def sampleParams (rate : Option ℚ) (w x y z : Option ℚ) : Params ℚ :=
  { rate_simulation := rate, rate_odom := none, world_frame_id := none, quadrotor_name := none
    mass := some 2, Ixx := some 1, Iyy := some 1, Izz := some 1, gravity := some 10
    prop_radius := some 1, thrust_coefficient := some 3, arm_length := some 1
    motor_time_constant := some 1, min_rpm := some 0, max_rpm := some 10
    drag_coefficient := some 4
    initial_position_x := some 7, initial_position_y := none, initial_position_z := some 9
    initial_orientation_w := w, initial_orientation_x := x, initial_orientation_y := y
    initial_orientation_z := z }

/-- A concrete square root stand-in over `ℚ`, exact at `25`. -/
def sampleSqrt : ℚ → ℚ := fun _ => 5

end Configuration

/-- The frame identifiers a telemetry record carries: header frame and child frame for
the odometry record and the transform, the header frame alone for the inertial measurement
and the extended output (their message types have no child frame). -/
def Event.frameIds {K U : Type} : Event K U → List String
  | Event.publishOdom msg => [msg.header.frame_id, msg.child_frame_id]
  | Event.sendTransform ts => [ts.header.frame_id, ts.child_frame_id]
  | Event.publishImu msg => [msg.header.frame_id]
  | Event.publishOutputData msg => [msg.header.frame_id]
  | _ => []

/-- Whether the action emits a telemetry record. -/
def Event.isRecord {K U : Type} : Event K U → Bool
  | Event.publishOdom _ => true
  | Event.sendTransform _ => true
  | Event.publishImu _ => true
  | Event.publishOutputData _ => true
  | _ => false

/-- What `run` establishes before the loop and every pass keeps: the two durations are the
reciprocals of the configured rates, and the frame identifiers of the three messages are
the configured ones. -/
def LoopState.Consistent {K U : Type} [LinearOrderedField K] (sim : QuadrotorSimulatorBase K U)
    (st : LoopState K U) : Prop :=
  st.simulation_dt = 1 / sim.simulation_rate_ ∧
  st.odom_pub_duration = 1 / sim.odom_rate_ ∧
  st.odom_msg.header.frame_id = sim.world_frame_id_ ∧
  st.odom_msg.child_frame_id = sim.quad_name_ ∧
  st.imu_msg.header.frame_id = sim.quad_name_ ∧
  st.output_data_msg.header.frame_id = sim.quad_name_

/-- Concrete hooks over `ℚ` with trivial command types: the controller asks for rotor
speeds `(1, 2, 3, 4)`, `setInput` keeps the vehicle, `step` moves it up by `dt`. -/
def sampleHooks : Hooks ℚ Unit Unit :=
  { emptyMsg := ()
    cmd_callback := fun _ _ => ()
    getControl := fun _ _ => ⟨⟨1, 2, 3, 4⟩⟩
    setInput := fun q _ _ _ _ => q
    step := fun q dt => q.withHeight (q.state.x.z + dt)
    quaternionOfMatrix := sampleQuaternionOfMatrix }

/-- A concrete simulator object over `ℚ` with the default rates and frame names. -/
def sampleSim : QuadrotorSimulatorBase ℚ Unit :=
  { quad_ := sampleQuad 0 4 ⟨0, 0, 0⟩ ⟨1, 2, 3⟩
    command_ := ()
    simulation_rate_ := 1000
    odom_rate_ := 100
    quad_name_ := "quadrotor"
    world_frame_id_ := "simulator" }

section TickSpec

variable {K T U : Type} [LinearOrderedField K]

/-- One simulation tick in the words of the specification, on the pair (vehicle, latest
command): take the latest command, ask the controller for the four rotor speeds, hand them
to the vehicle and advance the vehicle by `dt`. -/
def simulationTick (h : Hooks K T U) (dt : K) (s : Quadrotor K × U) (tick : Tick K T) :
    Quadrotor K × U :=
  let command := tick.msgs.foldl h.cmd_callback s.2
  let control := h.getControl s.1 command
  (h.step (h.setInput s.1 control.rpm.a0 control.rpm.a1 control.rpm.a2 control.rpm.a3) dt,
    command)

/-- The rotation matrix of the normalized quaternion `q / |q|` in closed form, without any
square root: the homogeneous quadratic entries of `q` over its squared norm. -/
def rotationOfQuaternion (q : Quat K) : Mat3 K :=
  let n := q.w * q.w + q.x * q.x + q.y * q.y + q.z * q.z
  ⟨(q.w * q.w + q.x * q.x - q.y * q.y - q.z * q.z) / n, 2 * (q.x * q.y - q.w * q.z) / n,
    2 * (q.x * q.z + q.w * q.y) / n,
   2 * (q.x * q.y + q.w * q.z) / n, (q.w * q.w - q.x * q.x + q.y * q.y - q.z * q.z) / n,
    2 * (q.y * q.z - q.w * q.x) / n,
   2 * (q.x * q.z - q.w * q.y) / n, 2 * (q.y * q.z + q.w * q.x) / n,
    (q.w * q.w - q.x * q.x - q.y * q.y + q.z * q.z) / n⟩

end TickSpec

/-- Concrete hooks over `ℚ` that leave a trace in the vehicle: the controller asks for the
rotor speeds `(5, 6, 7, 8)`, `setInput` stores them as the rotor speeds of the state, and
`step` moves the vehicle up by `dt`. -/
def trackingHooks : Hooks ℚ Unit Unit :=
  { emptyMsg := ()
    cmd_callback := fun _ _ => ()
    getControl := fun _ _ => ⟨⟨5, 6, 7, 8⟩⟩
    setInput := fun q a b c d => { q with state := { q.state with motor_rpm := ⟨a, b, c, d⟩ } }
    step := fun q dt => q.withHeight (q.state.x.z + dt)
    quaternionOfMatrix := sampleQuaternionOfMatrix }

/-! ## Theorems -/

section SensorTheorems

variable {K : Type} [LinearOrderedField K]

/-- In the ground regime the synthesized acceleration is `groundAccSpec`. -/
theorem quadToImuMsg_ground (qom : Mat3 K → Quat K) (quad : Quadrotor K) (imu : Imu K)
    (hz : quad.state.x.z < groundThreshold) :
    (quadToImuMsg qom quad imu).linear_acceleration =
      groundAccSpec quad.mass quad.gravity quad.external_force quad.state.R := by
  simp [quadToImuMsg, hz, groundAccSpec, Vec3.add, Vec3.divScalar, Mat3.transpose, Mat3.mulVec]

/-- In the airborne regime the synthesized acceleration is `airborneAccSpec`, whether or
not the drag branch is taken. -/
theorem quadToImuMsg_airborne (qom : Mat3 K → Quat K) (quad : Quadrotor K) (imu : Imu K)
    (hz : ¬ quad.state.x.z < groundThreshold) :
    (quadToImuMsg qom quad imu).linear_acceleration =
      airborneAccSpec quad.kf quad.mass quad.drag_coefficient quad.external_force quad.state.v
        quad.state.R quad.state.motor_rpm := by
  by_cases hk : quad.drag_coefficient = 0
  · simp [quadToImuMsg, hz, hk, airborneAccSpec, Vec3.add, Vec3.sub, Vec3.smul, Vec3.divScalar,
      Mat3.transpose, Mat3.mulVec, Vec3.asDiagonal, Array4.square, Array4.sum]
    ring
  · simp [quadToImuMsg, hz, hk, airborneAccSpec, Vec3.add, Vec3.sub, Vec3.smul, Vec3.divScalar,
      Mat3.transpose, Mat3.mulVec, Mat3.mul, Mat3.smul, Vec3.asDiagonal, Array4.square,
      Array4.sum]
    refine ⟨?_, ?_, ?_⟩ <;> ring

/-- C1: in the airborne regime (`x(2) >= 1e-4`) the synthesized linear acceleration is
`(kf * Σ rpm_i² / m) * (0,0,1) + Rᵀ f / m - (kd / m) * diag(1,1,0) * Rᵀ v`; the drag term is
subtracted when `kd ≠ 0`, and for `kd = 0` the result is the first two terms alone.  The
last three conjuncts give the same value coordinate by coordinate. -/
theorem C1_airborne_acceleration (qom : Mat3 K → Quat K) (quad : Quadrotor K) (imu : Imu K)
    (hz : groundThreshold ≤ quad.state.x.z) :
    (quad.drag_coefficient ≠ 0 →
      (quadToImuMsg qom quad imu).linear_acceleration =
        airborneAccSpec quad.kf quad.mass quad.drag_coefficient quad.external_force
          quad.state.v quad.state.R quad.state.motor_rpm) ∧
    (quad.drag_coefficient = 0 →
      (quadToImuMsg qom quad imu).linear_acceleration =
        airborneAccNoDragSpec quad.kf quad.mass quad.external_force quad.state.R
          quad.state.motor_rpm) ∧
    (quadToImuMsg qom quad imu).linear_acceleration.x =
      (quad.state.R.m00 * quad.external_force.x + quad.state.R.m10 * quad.external_force.y
          + quad.state.R.m20 * quad.external_force.z) / quad.mass
        - quad.drag_coefficient / quad.mass *
          (quad.state.R.m00 * quad.state.v.x + quad.state.R.m10 * quad.state.v.y
            + quad.state.R.m20 * quad.state.v.z) ∧
    (quadToImuMsg qom quad imu).linear_acceleration.y =
      (quad.state.R.m01 * quad.external_force.x + quad.state.R.m11 * quad.external_force.y
          + quad.state.R.m21 * quad.external_force.z) / quad.mass
        - quad.drag_coefficient / quad.mass *
          (quad.state.R.m01 * quad.state.v.x + quad.state.R.m11 * quad.state.v.y
            + quad.state.R.m21 * quad.state.v.z) ∧
    (quadToImuMsg qom quad imu).linear_acceleration.z =
      quad.kf * (quad.state.motor_rpm.a0 ^ 2 + quad.state.motor_rpm.a1 ^ 2
          + quad.state.motor_rpm.a2 ^ 2 + quad.state.motor_rpm.a3 ^ 2) / quad.mass
        + (quad.state.R.m02 * quad.external_force.x + quad.state.R.m12 * quad.external_force.y
          + quad.state.R.m22 * quad.external_force.z) / quad.mass := by
  have hz' : ¬ quad.state.x.z < groundThreshold := not_lt.mpr hz
  have h := quadToImuMsg_airborne qom quad imu hz'
  refine ⟨fun _ => h, fun hk => ?_, ?_, ?_, ?_⟩
  · rw [h, hk]
    simp [airborneAccSpec, airborneAccNoDragSpec, Vec3.add, Vec3.sub, Vec3.smul,
      Vec3.divScalar, Mat3.transpose, Mat3.mulVec, Vec3.asDiagonal]
  · rw [h]
    simp [airborneAccSpec, Vec3.add, Vec3.sub, Vec3.smul, Vec3.divScalar, Mat3.transpose,
      Mat3.mulVec, Vec3.asDiagonal]
  · rw [h]
    simp [airborneAccSpec, Vec3.add, Vec3.sub, Vec3.smul, Vec3.divScalar, Mat3.transpose,
      Mat3.mulVec, Vec3.asDiagonal]
  · rw [h]
    simp [airborneAccSpec, Vec3.add, Vec3.sub, Vec3.smul, Vec3.divScalar, Mat3.transpose,
      Mat3.mulVec, Vec3.asDiagonal]

/-- Witness of C1: the vehicle `sampleQuad 1 4 (2,4,6) (1,2,3)` is airborne, and its
synthesized acceleration is `(1 - 2, 2 - 4, 45 + 3)`. -/
theorem C1_airborne_acceleration_witness :
    (groundThreshold : ℚ) ≤ (sampleQuad 1 4 ⟨2, 4, 6⟩ ⟨1, 2, 3⟩).state.x.z ∧
    (quadToImuMsg sampleQuaternionOfMatrix (sampleQuad 1 4 ⟨2, 4, 6⟩ ⟨1, 2, 3⟩)
        sampleImu).linear_acceleration.x = -1 ∧
    (quadToImuMsg sampleQuaternionOfMatrix (sampleQuad 1 4 ⟨2, 4, 6⟩ ⟨1, 2, 3⟩)
        sampleImu).linear_acceleration.y = -2 ∧
    (quadToImuMsg sampleQuaternionOfMatrix (sampleQuad 1 4 ⟨2, 4, 6⟩ ⟨1, 2, 3⟩)
        sampleImu).linear_acceleration.z = 48 := by
  have hz : (groundThreshold : ℚ) ≤ (sampleQuad 1 4 ⟨2, 4, 6⟩ ⟨1, 2, 3⟩).state.x.z := by
    norm_num [sampleQuad, groundThreshold]
  obtain ⟨-, -, hx, hy, hzz⟩ := C1_airborne_acceleration sampleQuaternionOfMatrix
    (sampleQuad 1 4 ⟨2, 4, 6⟩ ⟨1, 2, 3⟩) sampleImu hz
  refine ⟨hz, ?_, ?_, ?_⟩
  · rw [hx]; norm_num [sampleQuad]
  · rw [hy]; norm_num [sampleQuad]
  · rw [hzz]; norm_num [sampleQuad]

/-- C2: in the ground regime (`x(2) < 1e-4`) the synthesized linear acceleration is
`Rᵀ * (f / m + (0,0,g))`, with no thrust contribution; with external force `(0,0,0)` (and a
nonzero mass, so that `0 / m` is `0`) it is gravity rotated into the body frame,
`Rᵀ * (0,0,g)`; and it is unchanged when the thrust coefficient, the rotor speeds, the
velocity and the drag coefficient are replaced by any other values. -/
theorem C2_ground_acceleration (qom : Mat3 K → Quat K) (quad : Quadrotor K) (imu : Imu K)
    (hz : quad.state.x.z < groundThreshold) :
    (quadToImuMsg qom quad imu).linear_acceleration =
      groundAccSpec quad.mass quad.gravity quad.external_force quad.state.R ∧
    (quad.mass ≠ 0 → quad.external_force = ⟨0, 0, 0⟩ →
      (quadToImuMsg qom quad imu).linear_acceleration =
        quad.state.R.transpose.mulVec ⟨0, 0, quad.gravity⟩) ∧
    (∀ (kf kd : K) (rpm : Array4 K) (v : Vec3 K),
      (quadToImuMsg qom
          { quad with
            kf := kf
            drag_coefficient := kd
            state := { quad.state with v := v, motor_rpm := rpm } } imu).linear_acceleration =
        (quadToImuMsg qom quad imu).linear_acceleration) := by
  refine ⟨quadToImuMsg_ground qom quad imu hz, fun _ hf => ?_, fun kf kd rpm v => ?_⟩
  · rw [quadToImuMsg_ground qom quad imu hz, hf]
    simp [groundAccSpec, Mat3.transpose, Mat3.mulVec]
  · rw [quadToImuMsg_ground qom quad imu hz, quadToImuMsg_ground qom _ imu (by simpa using hz)]

/-- Witness of C2: `sampleQuad 0 4 (0,0,0) (1,2,3)` is on the ground with zero external
force, and its synthesized acceleration is gravity in the body frame, `(0, 0, 10)`. -/
theorem C2_ground_acceleration_witness :
    (sampleQuad 0 4 ⟨0, 0, 0⟩ ⟨1, 2, 3⟩).state.x.z < (groundThreshold : ℚ) ∧
    (quadToImuMsg sampleQuaternionOfMatrix (sampleQuad 0 4 ⟨0, 0, 0⟩ ⟨1, 2, 3⟩)
        sampleImu).linear_acceleration =
      (sampleQuad 0 4 ⟨0, 0, 0⟩ ⟨1, 2, 3⟩).state.R.transpose.mulVec ⟨0, 0, 10⟩ := by
  have hz : (sampleQuad 0 4 ⟨0, 0, 0⟩ ⟨1, 2, 3⟩).state.x.z < (groundThreshold : ℚ) := by
    norm_num [sampleQuad, groundThreshold]
  exact ⟨hz, (C2_ground_acceleration sampleQuaternionOfMatrix
    (sampleQuad 0 4 ⟨0, 0, 0⟩ ⟨1, 2, 3⟩) sampleImu hz).2.1 (by norm_num [sampleQuad]) rfl⟩

/-- C3: the ground/airborne selection is a hard cutoff.  With every input but `x(2)` fixed,
`G` the ground-regime acceleration and `A` the airborne-regime acceleration, the synthesized
acceleration at height `z` is `G` when `z < 1e-4` and `A` otherwise, in particular `A` at
`z = 1e-4`, `G` at `1e-4 - δ` and `A` at `1e-4 + δ` for every `δ > 0`; it is never anything
but `G` or `A`. -/
theorem C3_hard_cutoff (qom : Mat3 K → Quat K) (quad : Quadrotor K) (imu : Imu K) :
    (∀ z : K, (quadToImuMsg qom (quad.withHeight z) imu).linear_acceleration =
      if z < groundThreshold then
        groundAccSpec quad.mass quad.gravity quad.external_force quad.state.R
      else
        airborneAccSpec quad.kf quad.mass quad.drag_coefficient quad.external_force
          quad.state.v quad.state.R quad.state.motor_rpm) ∧
    (quadToImuMsg qom (quad.withHeight groundThreshold) imu).linear_acceleration =
      airborneAccSpec quad.kf quad.mass quad.drag_coefficient quad.external_force
        quad.state.v quad.state.R quad.state.motor_rpm ∧
    (∀ δ : K, 0 < δ →
      (quadToImuMsg qom (quad.withHeight (groundThreshold - δ)) imu).linear_acceleration =
        groundAccSpec quad.mass quad.gravity quad.external_force quad.state.R ∧
      (quadToImuMsg qom (quad.withHeight (groundThreshold + δ)) imu).linear_acceleration =
        airborneAccSpec quad.kf quad.mass quad.drag_coefficient quad.external_force
          quad.state.v quad.state.R quad.state.motor_rpm) ∧
    (∀ z : K,
      (quadToImuMsg qom (quad.withHeight z) imu).linear_acceleration =
        groundAccSpec quad.mass quad.gravity quad.external_force quad.state.R ∨
      (quadToImuMsg qom (quad.withHeight z) imu).linear_acceleration =
        airborneAccSpec quad.kf quad.mass quad.drag_coefficient quad.external_force
          quad.state.v quad.state.R quad.state.motor_rpm) := by
  have key : ∀ z : K, (quadToImuMsg qom (quad.withHeight z) imu).linear_acceleration =
      if z < groundThreshold then
        groundAccSpec quad.mass quad.gravity quad.external_force quad.state.R
      else
        airborneAccSpec quad.kf quad.mass quad.drag_coefficient quad.external_force
          quad.state.v quad.state.R quad.state.motor_rpm := by
    intro z
    by_cases h : z < groundThreshold
    · rw [if_pos h]
      exact quadToImuMsg_ground qom (quad.withHeight z) imu h
    · rw [if_neg h]
      exact quadToImuMsg_airborne qom (quad.withHeight z) imu h
  refine ⟨key, ?_, fun δ hδ => ⟨?_, ?_⟩, fun z => ?_⟩
  · rw [key, if_neg (lt_irrefl _)]
  · rw [key, if_pos (by linarith)]
  · rw [key, if_neg (by linarith)]
  · rw [key]
    by_cases h : z < groundThreshold
    · left; rw [if_pos h]
    · right; rw [if_neg h]

/-- Witness of C3: around the threshold with `δ = 1/20000`, the sample vehicle reports the
ground value `(1, 2, 13)` just below and the airborne value `(-1, -2, 48)` just above. -/
theorem C3_hard_cutoff_witness :
    (quadToImuMsg sampleQuaternionOfMatrix
        ((sampleQuad 5 4 ⟨2, 4, 6⟩ ⟨1, 2, 3⟩).withHeight (groundThreshold - 1 / 20000))
        sampleImu).linear_acceleration = ⟨1, 2, 13⟩ ∧
    (quadToImuMsg sampleQuaternionOfMatrix
        ((sampleQuad 5 4 ⟨2, 4, 6⟩ ⟨1, 2, 3⟩).withHeight (groundThreshold + 1 / 20000))
        sampleImu).linear_acceleration = ⟨-1, -2, 48⟩ := by
  obtain ⟨hg, ha⟩ := (C3_hard_cutoff sampleQuaternionOfMatrix
    (sampleQuad 5 4 ⟨2, 4, 6⟩ ⟨1, 2, 3⟩) sampleImu).2.2.1 (1 / 20000) (by norm_num)
  constructor
  · rw [hg]; norm_num [groundAccSpec, sampleQuad]
  · rw [ha]
    norm_num [airborneAccSpec, sampleQuad, Vec3.add, Vec3.sub, Vec3.smul, Vec3.divScalar,
      Mat3.transpose, Mat3.mulVec, Vec3.asDiagonal]

/-- C4, as stated, fails: `sampleQuad 1 4 (0,0,0) (1,0,0)` is airborne with positive mass,
positive drag coefficient `4` and body-frame velocity `(1,0,0)`, and with no external force
the zero-drag horizontal acceleration is `(0,0)` while the drag one is `(-2,0)`: the
horizontal magnitude grows from `0` to `2` (squares `0` and `4`) instead of shrinking. -/
theorem C4_counterexample :
    (groundThreshold : ℚ) ≤ (sampleQuad 1 4 ⟨0, 0, 0⟩ ⟨1, 0, 0⟩).state.x.z ∧
    0 < (sampleQuad 1 4 ⟨0, 0, 0⟩ ⟨1, 0, 0⟩).mass ∧
    0 < (sampleQuad 1 4 ⟨0, 0, 0⟩ ⟨1, 0, 0⟩).drag_coefficient ∧
    ((sampleQuad 1 4 ⟨0, 0, 0⟩ ⟨1, 0, 0⟩).state.R.transpose.mulVec
      (sampleQuad 1 4 ⟨0, 0, 0⟩ ⟨1, 0, 0⟩).state.v).horizontalNormSq ≠ 0 ∧
    (quadToImuMsg sampleQuaternionOfMatrix (sampleQuad 1 4 ⟨0, 0, 0⟩ ⟨1, 0, 0⟩)
      sampleImu).linear_acceleration.horizontalNormSq = 4 ∧
    (quadToImuMsg sampleQuaternionOfMatrix (sampleQuad 1 0 ⟨0, 0, 0⟩ ⟨1, 0, 0⟩)
      sampleImu).linear_acceleration.horizontalNormSq = 0 ∧
    ¬ ((quadToImuMsg sampleQuaternionOfMatrix (sampleQuad 1 4 ⟨0, 0, 0⟩ ⟨1, 0, 0⟩)
        sampleImu).linear_acceleration.horizontalNormSq <
      (quadToImuMsg sampleQuaternionOfMatrix (sampleQuad 1 0 ⟨0, 0, 0⟩ ⟨1, 0, 0⟩)
        sampleImu).linear_acceleration.horizontalNormSq) := by
  norm_num [quadToImuMsg, sampleQuad, groundThreshold, Vec3.horizontalNormSq, Vec3.add,
    Vec3.sub, Vec3.smul, Vec3.divScalar, Mat3.transpose, Mat3.mulVec, Mat3.mul, Mat3.smul,
    Array4.square, Array4.sum]

/-- C4 (amended): for an airborne state, positive mass, positive drag coefficient `kd` and a
body-frame velocity `u = Rᵀ v` with nonzero horizontal part, the horizontal acceleration is
the zero-drag one minus `(kd / m)` times the horizontal part of `u`; its component along the
horizontal body-frame velocity is strictly smaller than in the zero-drag case; and its
magnitude is strictly smaller than the zero-drag magnitude exactly when
`(kd / m) * |u_h|² < 2 * (a0_h · u_h)`, `a0` being the zero-drag acceleration. -/
theorem C4_drag_horizontal (qom : Mat3 K → Quat K) (quad : Quadrotor K) (imu : Imu K) (kd : K)
    (hz : groundThreshold ≤ quad.state.x.z) (hm : 0 < quad.mass) (hk : 0 < kd)
    (hu : (quad.state.R.transpose.mulVec quad.state.v).horizontalNormSq ≠ 0) :
    (quadToImuMsg qom (quad.withDrag kd) imu).linear_acceleration.x =
      (quadToImuMsg qom (quad.withDrag 0) imu).linear_acceleration.x
        - kd / quad.mass * (quad.state.R.transpose.mulVec quad.state.v).x ∧
    (quadToImuMsg qom (quad.withDrag kd) imu).linear_acceleration.y =
      (quadToImuMsg qom (quad.withDrag 0) imu).linear_acceleration.y
        - kd / quad.mass * (quad.state.R.transpose.mulVec quad.state.v).y ∧
    (quadToImuMsg qom (quad.withDrag kd) imu).linear_acceleration.horizontalDot
        (quad.state.R.transpose.mulVec quad.state.v) <
      (quadToImuMsg qom (quad.withDrag 0) imu).linear_acceleration.horizontalDot
        (quad.state.R.transpose.mulVec quad.state.v) ∧
    ((quadToImuMsg qom (quad.withDrag kd) imu).linear_acceleration.horizontalNormSq <
        (quadToImuMsg qom (quad.withDrag 0) imu).linear_acceleration.horizontalNormSq ↔
      kd / quad.mass * (quad.state.R.transpose.mulVec quad.state.v).horizontalNormSq <
        2 * (quadToImuMsg qom (quad.withDrag 0) imu).linear_acceleration.horizontalDot
          (quad.state.R.transpose.mulVec quad.state.v)) := by
  have hz' : ¬ quad.state.x.z < groundThreshold := not_lt.mpr hz
  have hc : 0 < kd / quad.mass := div_pos hk hm
  have hx : (quadToImuMsg qom (quad.withDrag kd) imu).linear_acceleration.x =
      (quadToImuMsg qom (quad.withDrag 0) imu).linear_acceleration.x
        - kd / quad.mass * (quad.state.R.transpose.mulVec quad.state.v).x := by
    rw [quadToImuMsg_airborne qom (quad.withDrag kd) imu hz',
      quadToImuMsg_airborne qom (quad.withDrag 0) imu hz']
    simp [Quadrotor.withDrag, airborneAccSpec, Vec3.add, Vec3.sub, Vec3.smul, Vec3.divScalar,
      Mat3.transpose, Mat3.mulVec, Vec3.asDiagonal]
  have hy : (quadToImuMsg qom (quad.withDrag kd) imu).linear_acceleration.y =
      (quadToImuMsg qom (quad.withDrag 0) imu).linear_acceleration.y
        - kd / quad.mass * (quad.state.R.transpose.mulVec quad.state.v).y := by
    rw [quadToImuMsg_airborne qom (quad.withDrag kd) imu hz',
      quadToImuMsg_airborne qom (quad.withDrag 0) imu hz']
    simp [Quadrotor.withDrag, airborneAccSpec, Vec3.add, Vec3.sub, Vec3.smul, Vec3.divScalar,
      Mat3.transpose, Mat3.mulVec, Vec3.asDiagonal]
  have hpos : 0 < (quad.state.R.transpose.mulVec quad.state.v).horizontalNormSq := by
    refine lt_of_le_of_ne ?_ (Ne.symm hu)
    unfold Vec3.horizontalNormSq
    exact add_nonneg (mul_self_nonneg _) (mul_self_nonneg _)
  have hcu : 0 < kd / quad.mass *
      (quad.state.R.transpose.mulVec quad.state.v).horizontalNormSq := mul_pos hc hpos
  refine ⟨hx, hy, ?_, ?_⟩
  · unfold Vec3.horizontalDot
    rw [hx, hy]
    unfold Vec3.horizontalNormSq at hcu
    linarith
  · unfold Vec3.horizontalNormSq Vec3.horizontalDot
    rw [hx, hy]
    unfold Vec3.horizontalNormSq at hcu hpos
    constructor
    · intro h
      have := mul_pos hc hcu
      by_contra hcon
      push_neg at hcon
      nlinarith [mul_le_mul_of_nonneg_left hcon hc.le]
    · intro h
      nlinarith [mul_lt_mul_of_pos_left h hc]

/-- Witness of C4 (amended): `sampleQuad 1 4 (8,0,0) (1,0,0)` has zero-drag horizontal
acceleration `(4,0)` along the body velocity `(1,0)`; drag `4` on mass `2` brings it to
`(2,0)`, a strictly smaller magnitude since `2 * 1 < 2 * 4`. -/
theorem C4_drag_horizontal_witness :
    (quadToImuMsg sampleQuaternionOfMatrix ((sampleQuad 1 4 ⟨8, 0, 0⟩ ⟨1, 0, 0⟩).withDrag 4)
        sampleImu).linear_acceleration.horizontalNormSq <
      (quadToImuMsg sampleQuaternionOfMatrix ((sampleQuad 1 4 ⟨8, 0, 0⟩ ⟨1, 0, 0⟩).withDrag 0)
        sampleImu).linear_acceleration.horizontalNormSq := by
  refine (C4_drag_horizontal sampleQuaternionOfMatrix (sampleQuad 1 4 ⟨8, 0, 0⟩ ⟨1, 0, 0⟩)
    sampleImu 4 (by norm_num [sampleQuad, groundThreshold]) (by norm_num [sampleQuad])
    (by norm_num) (by norm_num [sampleQuad, Vec3.horizontalNormSq, Mat3.transpose,
      Mat3.mulVec])).2.2.2.mpr ?_
  norm_num [quadToImuMsg, sampleQuad, groundThreshold, Quadrotor.withDrag,
    Vec3.horizontalNormSq, Vec3.horizontalDot, Vec3.add, Vec3.sub, Vec3.smul, Vec3.divScalar,
    Mat3.transpose, Mat3.mulVec, Mat3.mul, Mat3.smul, Array4.square, Array4.sum]

/-- C5: the body-`z` component of the synthesized linear acceleration does not depend on the
drag coefficient: for every vehicle and every two drag coefficients the `z` components
agree, so drag can change the `x` and `y` components only. -/
theorem C5_drag_vertical (qom : Mat3 K → Quat K) (quad : Quadrotor K) (imu : Imu K)
    (kd1 kd2 : K) :
    (quadToImuMsg qom (quad.withDrag kd1) imu).linear_acceleration.z =
      (quadToImuMsg qom (quad.withDrag kd2) imu).linear_acceleration.z := by
  by_cases hz : quad.state.x.z < groundThreshold
  · rw [quadToImuMsg_ground qom (quad.withDrag kd1) imu hz,
      quadToImuMsg_ground qom (quad.withDrag kd2) imu hz]
    rfl
  · rw [quadToImuMsg_airborne qom (quad.withDrag kd1) imu hz,
      quadToImuMsg_airborne qom (quad.withDrag kd2) imu hz]
    simp [Quadrotor.withDrag, airborneAccSpec, Vec3.add, Vec3.sub, Vec3.smul, Vec3.divScalar,
      Mat3.transpose, Mat3.mulVec, Vec3.asDiagonal]

end SensorTheorems

section BridgeLemmas

/-- The Mathlib matrix of a transpose is the transpose of the Mathlib matrix. -/
theorem Mat3.toMatrix_transpose {K : Type} (A : Mat3 K) :
    A.transpose.toMatrix = A.toMatrix.transpose := by
  ext i j
  fin_cases i <;> fin_cases j <;> simp [Mat3.toMatrix, Mat3.transpose]

/-- Reading a constant never raises the assertion exception. -/
theorem getParameterAsDouble_bind_ne {K α : Type} (name : String) (value : Option K)
    (f : K → Except SimError α) (hf : ∀ a, f a ≠ Except.error SimError.assertionFailed) :
    (getParameterAsDouble name value >>= f) ≠ Except.error SimError.assertionFailed := by
  cases value with
  | none => simp [getParameterAsDouble, bind, Except.bind]
  | some a => simpa [getParameterAsDouble, bind, Except.bind] using hf a

end BridgeLemmas

section ConstructorTheorems

variable {K U : Type} [LinearOrderedField K]

/-- The Mathlib matrix of a product is the product of the Mathlib matrices. -/
theorem Mat3.toMatrix_mul (A B : Mat3 K) : (A.mul B).toMatrix = A.toMatrix * B.toMatrix := by
  ext i j
  fin_cases i <;> fin_cases j <;>
    simp [Mat3.toMatrix, Mat3.mul, Matrix.mul_apply, Fin.sum_univ_three]

/-- The Mathlib matrix of `Mat3.identity` is `1`. -/
theorem Mat3.toMatrix_identity : (Mat3.identity : Mat3 K).toMatrix = 1 := by
  ext i j
  fin_cases i <;> fin_cases j <;>
    simp [Mat3.toMatrix, Mat3.identity, Matrix.vecHead, Matrix.vecTail]

/-- The determinant of the Mathlib matrix, expanded. -/
theorem Mat3.det_toMatrix (M : Mat3 K) : M.toMatrix.det =
    M.m00 * M.m11 * M.m22 - M.m00 * M.m12 * M.m21 - M.m01 * M.m10 * M.m22
      + M.m01 * M.m12 * M.m20 + M.m02 * M.m10 * M.m21 - M.m02 * M.m11 * M.m20 := by
  simp [Mat3.toMatrix, Matrix.det_fin_three]

/-- The matrix of a unit quaternion, with every `1` on the diagonal written as the squared
norm: the homogeneous form of `Quat.matrix`. -/
theorem Quat.matrix_of_unit (q : Quat K) (hq : q.squaredNorm = 1) :
    q.matrix =
      ⟨q.w * q.w + q.x * q.x - q.y * q.y - q.z * q.z, 2 * (q.x * q.y - q.w * q.z),
        2 * (q.x * q.z + q.w * q.y),
       2 * (q.x * q.y + q.w * q.z), q.w * q.w - q.x * q.x + q.y * q.y - q.z * q.z,
        2 * (q.y * q.z - q.w * q.x),
       2 * (q.x * q.z - q.w * q.y), 2 * (q.y * q.z + q.w * q.x),
        q.w * q.w - q.x * q.x - q.y * q.y + q.z * q.z⟩ := by
  unfold Quat.squaredNorm at hq
  simp only [Quat.matrix, Mat3.mk.injEq]
  refine ⟨?_, ?_, ?_, ?_, ?_, ?_, ?_, ?_, ?_⟩ <;> first | ring1 | linear_combination -hq

/-- The matrix of a unit quaternion is orthonormal with determinant `+1`. -/
theorem Quat.matrix_rotation_of_unit (q : Quat K) (hq : q.squaredNorm = 1) :
    q.matrix.transpose.mul q.matrix = Mat3.identity ∧
    q.matrix.mul q.matrix.transpose = Mat3.identity ∧
    q.matrix.toMatrix.det = 1 := by
  rw [Mat3.det_toMatrix, Quat.matrix_of_unit q hq]
  unfold Quat.squaredNorm at hq
  simp only [Mat3.transpose, Mat3.mul, Mat3.identity, Mat3.mk.injEq]
  have h2 : (q.w * q.w + q.x * q.x + q.y * q.y + q.z * q.z) ^ 2 = 1 := by rw [hq]; ring
  have h3 : (q.w * q.w + q.x * q.x + q.y * q.y + q.z * q.z) ^ 3 = 1 := by rw [hq]; ring
  refine ⟨⟨?_, ?_, ?_, ?_, ?_, ?_, ?_, ?_, ?_⟩, ⟨?_, ?_, ?_, ?_, ?_, ?_, ?_, ?_, ?_⟩, ?_⟩
  all_goals first
    | ring1
    | linear_combination h2
    | linear_combination h3

/-- The normalized quaternion has unit squared norm when the square root is exact at the
positive squared norm. -/
theorem Quat.normalize_squaredNorm (sqrt : K → K) (q : Quat K) (hpos : 0 < q.squaredNorm)
    (hs : sqrt q.squaredNorm * sqrt q.squaredNorm = q.squaredNorm) :
    (q.normalize sqrt).squaredNorm = 1 := by
  have hne : sqrt q.squaredNorm ≠ 0 := by
    intro h0
    rw [h0] at hs
    simp at hs
    exact absurd hs.symm (ne_of_gt hpos)
  have hn : q.normalize sqrt = ⟨q.w / sqrt q.squaredNorm, q.x / sqrt q.squaredNorm,
      q.y / sqrt q.squaredNorm, q.z / sqrt q.squaredNorm⟩ := by
    simp [Quat.normalize, hpos]
  rw [hn]
  have key : q.w * q.w + q.x * q.x + q.y * q.y + q.z * q.z
      = sqrt q.squaredNorm * sqrt q.squaredNorm := by
    rw [hs]; rfl
  generalize sqrt q.squaredNorm = s at hne key
  simp only [Quat.squaredNorm]
  field_simp
  linear_combination key

/-- A quaternion whose squared norm is not positive is the zero quaternion, `normalize`
leaves it unchanged and its matrix is the identity. -/
theorem Quat.matrix_normalize_of_not_pos (sqrt : K → K) (q : Quat K)
    (hpos : ¬ 0 < q.squaredNorm) : (q.normalize sqrt).matrix = Mat3.identity := by
  have hn : q.normalize sqrt = q := by simp [Quat.normalize, hpos]
  rw [hn]
  have hle : q.w * q.w + q.x * q.x + q.y * q.y + q.z * q.z ≤ 0 := not_lt.mp hpos
  have hw : q.w = 0 := by
    have := mul_self_nonneg q.w; have := mul_self_nonneg q.x
    have := mul_self_nonneg q.y; have := mul_self_nonneg q.z
    exact mul_self_eq_zero.mp (by linarith)
  have hx : q.x = 0 := by
    have := mul_self_nonneg q.w; have := mul_self_nonneg q.x
    have := mul_self_nonneg q.y; have := mul_self_nonneg q.z
    exact mul_self_eq_zero.mp (by linarith)
  have hy : q.y = 0 := by
    have := mul_self_nonneg q.w; have := mul_self_nonneg q.x
    have := mul_self_nonneg q.y; have := mul_self_nonneg q.z
    exact mul_self_eq_zero.mp (by linarith)
  have hz : q.z = 0 := by
    have := mul_self_nonneg q.w; have := mul_self_nonneg q.x
    have := mul_self_nonneg q.y; have := mul_self_nonneg q.z
    exact mul_self_eq_zero.mp (by linarith)
  simp [Quat.matrix, Mat3.identity, hw, hx, hy, hz]

/-- For a quaternion of positive squared norm and a square root exact there, the matrix of
the normalized quaternion is the closed form `rotationOfQuaternion`. -/
theorem Quat.matrix_normalize_of_pos (sqrt : K → K) (q : Quat K) (hpos : 0 < q.squaredNorm)
    (hs : sqrt q.squaredNorm * sqrt q.squaredNorm = q.squaredNorm) :
    (q.normalize sqrt).matrix = rotationOfQuaternion q := by
  have hne : sqrt q.squaredNorm ≠ 0 := by
    intro h0
    rw [h0] at hs
    simp at hs
    exact absurd hs.symm (ne_of_gt hpos)
  have hn : q.normalize sqrt = ⟨q.w / sqrt q.squaredNorm, q.x / sqrt q.squaredNorm,
      q.y / sqrt q.squaredNorm, q.z / sqrt q.squaredNorm⟩ := by
    simp [Quat.normalize, hpos]
  rw [hn]
  have key : q.w * q.w + q.x * q.x + q.y * q.y + q.z * q.z
      = sqrt q.squaredNorm * sqrt q.squaredNorm := by
    rw [hs]; rfl
  generalize sqrt q.squaredNorm = s at hne key
  simp only [Quat.matrix, rotationOfQuaternion, Mat3.mk.injEq]
  rw [key]
  refine ⟨?_, ?_, ?_, ?_, ?_, ?_, ?_, ?_, ?_⟩
  all_goals
    field_simp
    first
      | ring1
      | linear_combination -key

/-- The matrix the constructor stores is a rotation: orthonormal with determinant `+1`. -/
theorem Quat.normalize_matrix_rotation (sqrt : K → K) (q : Quat K)
    (hs : 0 < q.squaredNorm → sqrt q.squaredNorm * sqrt q.squaredNorm = q.squaredNorm) :
    ((q.normalize sqrt).matrix.toMatrix).transpose * (q.normalize sqrt).matrix.toMatrix = 1 ∧
    (q.normalize sqrt).matrix.toMatrix * ((q.normalize sqrt).matrix.toMatrix).transpose = 1 ∧
    (q.normalize sqrt).matrix.toMatrix.det = 1 := by
  by_cases hpos : 0 < q.squaredNorm
  · obtain ⟨h1, h2, h3⟩ := Quat.matrix_rotation_of_unit (q.normalize sqrt)
      (Quat.normalize_squaredNorm sqrt q hpos (hs hpos))
    refine ⟨?_, ?_, h3⟩
    · rw [← Mat3.toMatrix_transpose, ← Mat3.toMatrix_mul, h1, Mat3.toMatrix_identity]
    · rw [← Mat3.toMatrix_transpose, ← Mat3.toMatrix_mul, h2, Mat3.toMatrix_identity]
  · rw [Quat.matrix_normalize_of_not_pos sqrt q hpos, Mat3.toMatrix_identity]
    simp

/-- When the simulation rate is positive and every physical constant has a value, the
constructor returns an object, with the state it builds from `quad0`. -/
theorem construct_ok (sqrt : K → K) (quad0 : Quadrotor K) (command0 : U) (p : Params K)
    (hrate : 0 < declareAndGet p.rate_simulation 1000) (hset : p.constantsSet = true) :
    ∃ sim : QuadrotorSimulatorBase K U,
      QuadrotorSimulatorBase.construct sqrt quad0 command0 p = Except.ok sim ∧
      sim.quad_.state =
        { quad0.state with
          x := p.initialPosition
          R := (p.initialOrientation.normalize sqrt).matrix } ∧
      sim.simulation_rate_ = declareAndGet p.rate_simulation 1000 := by
  simp only [Params.constantsSet, Bool.and_eq_true, Option.isSome_iff_exists] at hset
  obtain ⟨⟨⟨⟨⟨⟨⟨⟨⟨⟨⟨⟨a1, h1⟩, ⟨a2, h2⟩⟩, ⟨a3, h3⟩⟩, ⟨a4, h4⟩⟩, ⟨a5, h5⟩⟩, ⟨a6, h6⟩⟩, ⟨a7, h7⟩⟩,
    ⟨a8, h8⟩⟩, ⟨a9, h9⟩⟩, ⟨a10, h10⟩⟩, ⟨a11, h11⟩⟩, ⟨a12, h12⟩⟩ := hset
  simp only [QuadrotorSimulatorBase.construct, assert_true, getParameterAsDouble, h1, h2, h3,
    h4, h5, h6, h7, h8, h9, h10, h11, h12, gt_iff_lt, hrate, decide_True, if_true, bind,
    Except.bind, pure, Except.pure]
  exact ⟨_, rfl, rfl, rfl⟩

/-- C8: a non-positive simulation rate is fatal at startup.  When `rate/simulation <= 0`
the constructor raises the assertion exception, whatever the other parameters are (also
when a vehicle constant is missing, so the check comes before any constant is read or
set), and returns no object; when `rate/simulation > 0`, in particular for the default
`1000`, the assertion passes and the constructor does not raise it. -/
theorem C8_nonpositive_rate_fatal (sqrt : K → K) (quad0 : Quadrotor K) (command0 : U)
    (p : Params K) :
    (declareAndGet p.rate_simulation 1000 ≤ 0 →
      QuadrotorSimulatorBase.construct sqrt quad0 command0 p =
          Except.error SimError.assertionFailed ∧
        ∀ sim, QuadrotorSimulatorBase.construct sqrt quad0 command0 p ≠ Except.ok sim) ∧
    (0 < declareAndGet p.rate_simulation 1000 →
      assert_true (decide (declareAndGet p.rate_simulation 1000 > 0)) = Except.ok () ∧
        QuadrotorSimulatorBase.construct sqrt quad0 command0 p ≠
          Except.error SimError.assertionFailed) ∧
    (p.rate_simulation = none →
      declareAndGet p.rate_simulation 1000 = 1000 ∧
        QuadrotorSimulatorBase.construct sqrt quad0 command0 p ≠
          Except.error SimError.assertionFailed) := by
  have hpos : 0 < declareAndGet p.rate_simulation 1000 →
      QuadrotorSimulatorBase.construct sqrt quad0 command0 p ≠
        Except.error SimError.assertionFailed := by
    intro hrate
    simp only [QuadrotorSimulatorBase.construct, assert_true, gt_iff_lt, hrate, decide_True,
      if_true]
    show (Except.ok () >>= _) ≠ _
    simp only [bind, Except.bind]
    repeat (refine getParameterAsDouble_bind_ne _ _ _ (fun _ => ?_))
    simp [pure, Except.pure]
  refine ⟨fun hle => ?_, fun hrate => ⟨?_, hpos hrate⟩, fun hnone => ?_⟩
  · have hnot : ¬ 0 < declareAndGet p.rate_simulation 1000 := not_lt.mpr hle
    have herr : QuadrotorSimulatorBase.construct sqrt quad0 command0 p =
        Except.error SimError.assertionFailed := by
      simp [QuadrotorSimulatorBase.construct, assert_true, hnot, bind, Except.bind]
    refine ⟨herr, fun sim hsim => ?_⟩
    rw [herr] at hsim
    cases hsim
  · simp [assert_true, hrate]
  · have h1000 : declareAndGet p.rate_simulation 1000 = 1000 := by
      simp [declareAndGet, hnone]
    exact ⟨h1000, hpos (by rw [h1000]; norm_num)⟩

/-- Witness of C8: with `rate/simulation = -5` the configuration `sampleParams` (all
constants supplied) is rejected with the assertion exception. -/
theorem C8_nonpositive_rate_fatal_witness :
    declareAndGet (sampleParams (some (-5)) none none none none).rate_simulation 1000 ≤ 0 ∧
    (QuadrotorSimulatorBase.construct sampleSqrt (sampleQuad 0 0 ⟨0, 0, 0⟩ ⟨0, 0, 0⟩) ()
        (sampleParams (some (-5)) none none none none) : Except SimError _) =
      Except.error SimError.assertionFailed := by
  have h : declareAndGet (sampleParams (some (-5)) none none none none).rate_simulation 1000
      ≤ 0 := by
    norm_num [declareAndGet, sampleParams]
  exact ⟨h, ((C8_nonpositive_rate_fatal sampleSqrt (sampleQuad 0 0 ⟨0, 0, 0⟩ ⟨0, 0, 0⟩) ()
    (sampleParams (some (-5)) none none none none)).1 h).1⟩

/-- C10: for a configuration the constructor accepts (positive simulation rate, every
physical constant supplied) and a square root that is exact at the squared norm of the
configured quaternion, the constructor returns an object whose initial state holds the
rotation matrix of the normalized configured quaternion: for a quaternion `q` of positive
squared norm `n` it is the closed form with entries `(w² + x² - y² - z²) / n`,
`2 (x y - w z) / n`, and so on (`rotationOfQuaternion`), and for the zero quaternion, which
`normalize` leaves unchanged, it is the identity; that matrix is orthonormal with
determinant `+1`; it is the identity for the default quaternion `(1,0,0,0)`; the position
is the configured `(x,y,z)`; and velocity, angular velocity and rotor speeds are those of
the default-constructed `Quadrotor`. -/
theorem C10_initial_orientation (sqrt : K → K) (quad0 : Quadrotor K) (command0 : U)
    (p : Params K) (hrate : 0 < declareAndGet p.rate_simulation 1000)
    (hset : p.constantsSet = true)
    (hsqrt : 0 < p.initialOrientation.squaredNorm →
      sqrt p.initialOrientation.squaredNorm * sqrt p.initialOrientation.squaredNorm =
        p.initialOrientation.squaredNorm) :
    ∃ sim : QuadrotorSimulatorBase K U,
      QuadrotorSimulatorBase.construct sqrt quad0 command0 p = Except.ok sim ∧
      sim.quad_.state.R = (p.initialOrientation.normalize sqrt).matrix ∧
      (0 < p.initialOrientation.squaredNorm →
        sim.quad_.state.R = rotationOfQuaternion p.initialOrientation) ∧
      (¬ 0 < p.initialOrientation.squaredNorm → sim.quad_.state.R = Mat3.identity) ∧
      sim.quad_.state.R.toMatrix.transpose * sim.quad_.state.R.toMatrix = 1 ∧
      sim.quad_.state.R.toMatrix * sim.quad_.state.R.toMatrix.transpose = 1 ∧
      sim.quad_.state.R.toMatrix.det = 1 ∧
      (p.initialOrientation = ⟨1, 0, 0, 0⟩ → sim.quad_.state.R = Mat3.identity) ∧
      sim.quad_.state.x = p.initialPosition ∧
      sim.quad_.state.v = quad0.state.v ∧
      sim.quad_.state.omega = quad0.state.omega ∧
      sim.quad_.state.motor_rpm = quad0.state.motor_rpm := by
  obtain ⟨sim, hok, hstate, -⟩ := construct_ok sqrt quad0 command0 p hrate hset
  have hR : sim.quad_.state.R = (p.initialOrientation.normalize sqrt).matrix := by
    rw [hstate]
  obtain ⟨ho1, ho2, hdet⟩ := Quat.normalize_matrix_rotation sqrt p.initialOrientation hsqrt
  refine ⟨sim, hok, hR, ?_, ?_, ?_, ?_, ?_, ?_, ?_, ?_, ?_, ?_⟩
  · intro hpos
    rw [hR]
    exact Quat.matrix_normalize_of_pos sqrt p.initialOrientation hpos (hsqrt hpos)
  · intro hpos
    rw [hR]
    exact Quat.matrix_normalize_of_not_pos sqrt p.initialOrientation hpos
  · rw [hR]; exact ho1
  · rw [hR]; exact ho2
  · rw [hR]; exact hdet
  · intro hq
    have h1 : (0 : K) < p.initialOrientation.squaredNorm := by
      rw [hq]; simp [Quat.squaredNorm]
    rw [hR, Quat.matrix_normalize_of_pos sqrt p.initialOrientation h1 (hsqrt h1), hq]
    simp [rotationOfQuaternion, Mat3.identity]
  · rw [hstate]
  · rw [hstate]
  · rw [hstate]
  · rw [hstate]

/-- Witness of C10: the configured quaternion `(1, 2, 2, 4)` has norm `5`; the constructor
accepts `sampleParams` with it and stores the rotation matrix of `(1/5, 2/5, 2/5, 4/5)`,
whose entries are `-3/5, 0, 4/5; 16/25, -3/5, 12/25; 12/25, 4/5, 9/25`, at the configured
position `(7, 0, 9)`. -/
theorem C10_initial_orientation_witness :
    ∃ sim : QuadrotorSimulatorBase ℚ Unit,
      QuadrotorSimulatorBase.construct sampleSqrt (sampleQuad 0 0 ⟨0, 0, 0⟩ ⟨0, 0, 0⟩) ()
        (sampleParams (some 200) (some 1) (some 2) (some 2) (some 4)) = Except.ok sim ∧
      sim.quad_.state.R = (⟨1 / 5, 2 / 5, 2 / 5, 4 / 5⟩ : Quat ℚ).matrix ∧
      sim.quad_.state.R =
        ⟨-3 / 5, 0, 4 / 5,
         16 / 25, -3 / 5, 12 / 25,
         12 / 25, 4 / 5, 9 / 25⟩ ∧
      sim.quad_.state.x = ⟨7, 0, 9⟩ ∧
      sim.quad_.state.R.toMatrix.det = 1 := by
  obtain ⟨sim, hok, hR, hpos, -, -, -, hdet, -, hx, -⟩ :=
    C10_initial_orientation (U := Unit) sampleSqrt
    (sampleQuad 0 0 ⟨0, 0, 0⟩ ⟨0, 0, 0⟩) ()
    (sampleParams (some 200) (some 1) (some 2) (some 2) (some 4))
    (by norm_num [declareAndGet, sampleParams]) (by simp [Params.constantsSet, sampleParams])
    (by intro _; norm_num [sampleSqrt, Params.initialOrientation, declareAndGet, sampleParams,
      Quat.squaredNorm])
  refine ⟨sim, hok, ?_, ?_, ?_, hdet⟩
  · rw [hR]
    norm_num [Quat.normalize, Params.initialOrientation, declareAndGet, sampleParams,
      Quat.squaredNorm, sampleSqrt]
  · rw [hpos (by norm_num [Params.initialOrientation, declareAndGet, sampleParams,
      Quat.squaredNorm])]
    norm_num [rotationOfQuaternion, Params.initialOrientation, declareAndGet, sampleParams]
  · rw [hx]
    norm_num [Params.initialPosition, declareAndGet, sampleParams]

end ConstructorTheorems

section CountLemmas

variable {K U : Type}

/-- Steps are counted additively over concatenated action lists. -/
theorem stepCount_append (l1 l2 : List (Event K U)) :
    stepCount (l1 ++ l2) = stepCount l1 + stepCount l2 := by
  induction l1 with
  | nil => simp [stepCount]
  | cons e rest ih => cases e <;> (simp [stepCount, ih]; try omega)

/-- Publications are counted additively over concatenated action lists. -/
theorem publicationCount_append (l1 l2 : List (Event K U)) :
    publicationCount (l1 ++ l2) = publicationCount l1 + publicationCount l2 := by
  induction l1 with
  | nil => simp [publicationCount]
  | cons e rest ih => cases e <;> (simp [publicationCount, ih]; try omega)

end CountLemmas

section RunTheorems

variable {K T U : Type} [LinearOrderedField K]

/-- The state before the loop is consistent with the configuration. -/
theorem runInit_consistent (h : Hooks K T U) (sim : QuadrotorSimulatorBase K U) (t0 : K) :
    (runInit h sim t0).Consistent sim ∧ (runInit h sim t0).next_odom_pub_time = t0 := by
  simp [runInit, LoopState.Consistent]

/-- A pass of the loop keeps the durations and the frame identifiers. -/
theorem iterate_consistent (h : Hooks K T U) (sim : QuadrotorSimulatorBase K U)
    (st : LoopState K U) (tick : Tick K T) (hst : st.Consistent sim) :
    (iterate h st tick).1.Consistent sim := by
  obtain ⟨h1, h2, h3, h4, h5, h6⟩ := hst
  by_cases hp : tick.tnow ≥ st.next_odom_pub_time
  · simp [iterate, hp, LoopState.Consistent, h1, h2, h3, h4, h5, h6, stateToOdomMsg,
      quadToImuMsg]
  · simp [iterate, hp, LoopState.Consistent, h1, h2, h3, h4, h5, h6]

/-- The loop keeps the durations and the frame identifiers. -/
theorem runLoop_consistent (h : Hooks K T U) (sim : QuadrotorSimulatorBase K U)
    (ticks : List (Tick K T)) :
    ∀ st : LoopState K U, st.Consistent sim → (runLoop h st ticks).1.Consistent sim := by
  induction ticks with
  | nil => intro st hst; exact hst
  | cons tick rest ih =>
    intro st hst
    exact ih _ (iterate_consistent h sim st tick hst)

/-- Every state the loop reaches is consistent with the configuration. -/
theorem run_consistent (h : Hooks K T U) (sim : QuadrotorSimulatorBase K U) (t0 : K)
    (ticks : List (Tick K T)) : (run h sim t0 ticks).1.Consistent sim :=
  runLoop_consistent h sim ticks _ (runInit_consistent h sim t0).1

/-- Running the loop over `pre ++ [tick]` is running it over `pre` and making one more
pass. -/
theorem runLoop_append (h : Hooks K T U) (pre : List (Tick K T)) (tick : Tick K T) :
    ∀ st : LoopState K U,
      runLoop h st (pre ++ [tick]) =
        ((iterate h (runLoop h st pre).1 tick).1,
          (runLoop h st pre).2 ++ (iterate h (runLoop h st pre).1 tick).2) := by
  induction pre with
  | nil => intro st; simp [runLoop]
  | cons t rest ih =>
    intro st
    simp [runLoop, ih, List.append_assoc]

/-- The actions of a pass that does not publish. -/
theorem iterate_quiet (h : Hooks K T U) (st : LoopState K U) (tick : Tick K T)
    (hp : ¬ tick.tnow ≥ st.next_odom_pub_time) :
    (iterate h st tick).2 =
        [Event.getControl (tick.msgs.foldl h.cmd_callback st.self.command_),
          Event.setInput
            (h.getControl st.self.quad_ (tick.msgs.foldl h.cmd_callback st.self.command_)).rpm,
          Event.step st.simulation_dt] ∧
      (iterate h st tick).1.next_odom_pub_time = st.next_odom_pub_time := by
  simp [iterate, hp]

/-- The actions of a pass that publishes, with the headers of the four records. -/
theorem iterate_publishing (h : Hooks K T U) (st : LoopState K U) (tick : Tick K T)
    (hp : tick.tnow ≥ st.next_odom_pub_time) :
    ∃ (o : Odometry K) (ts : TransformStamped K) (i : Imu K) (d : OutputData K),
      (iterate h st tick).2 =
        [Event.getControl (tick.msgs.foldl h.cmd_callback st.self.command_),
          Event.setInput
            (h.getControl st.self.quad_ (tick.msgs.foldl h.cmd_callback st.self.command_)).rpm,
          Event.step st.simulation_dt,
          Event.publishOdom o, Event.sendTransform ts, Event.publishImu i,
          Event.publishOutputData d] ∧
      (iterate h st tick).1.next_odom_pub_time =
        st.next_odom_pub_time + st.odom_pub_duration ∧
      o.header.stamp = tick.tnow ∧ o.header.frame_id = st.odom_msg.header.frame_id ∧
      o.child_frame_id = st.odom_msg.child_frame_id ∧
      ts.header.stamp = tick.tnow ∧ ts.header.frame_id = st.odom_msg.header.frame_id ∧
      ts.child_frame_id = st.odom_msg.child_frame_id ∧
      i.header.stamp = tick.tnow ∧ i.header.frame_id = st.imu_msg.header.frame_id ∧
      d.header.stamp = tick.tnow ∧
      d.header.frame_id = st.output_data_msg.header.frame_id := by
  generalize hr : iterate h st tick = r
  unfold iterate at hr
  rw [if_pos hp] at hr
  subst hr
  exact ⟨_, _, _, _, rfl, rfl, rfl, rfl, rfl, rfl, rfl, rfl, rfl, rfl, rfl, rfl⟩

/-- What one pass does, in numbers: one step of size `simulation_dt`, one publication
exactly when the clock has reached `next_odom_pub_time`, which then advances by
`odom_pub_duration`. -/
theorem iterate_counts (h : Hooks K T U) (st : LoopState K U) (tick : Tick K T) :
    stepCount (iterate h st tick).2 = 1 ∧
    (∀ dt, Event.step dt ∈ (iterate h st tick).2 → dt = st.simulation_dt) ∧
    publicationCount (iterate h st tick).2 =
      (if tick.tnow ≥ st.next_odom_pub_time then 1 else 0) ∧
    (iterate h st tick).1.next_odom_pub_time =
      st.next_odom_pub_time +
        (publicationCount (iterate h st tick).2 : K) * st.odom_pub_duration := by
  by_cases hp : tick.tnow ≥ st.next_odom_pub_time
  · obtain ⟨o, ts, i, d, hev, hnext, -⟩ := iterate_publishing h st tick hp
    rw [hev, hnext, if_pos hp]
    refine ⟨by simp [stepCount], ?_, by simp [publicationCount], by simp [publicationCount]⟩
    intro dt hdt
    simpa using hdt
  · obtain ⟨hev, hnext⟩ := iterate_quiet h st tick hp
    rw [hev, hnext, if_neg hp]
    refine ⟨by simp [stepCount], ?_, by simp [publicationCount], by simp [publicationCount]⟩
    intro dt hdt
    simpa using hdt

/-- What one pass does to the object: the command is the latest one delivered, and the
vehicle is the old one after `setInput` with the controller's rotor speeds and one `step`
of size `simulation_dt`; the configuration fields are untouched. -/
theorem iterate_vehicle (h : Hooks K T U) (st : LoopState K U) (tick : Tick K T) :
    (iterate h st tick).1.self.command_ = tick.msgs.foldl h.cmd_callback st.self.command_ ∧
    (iterate h st tick).1.self.quad_ =
      h.step
        (h.setInput st.self.quad_
          (h.getControl st.self.quad_
            (tick.msgs.foldl h.cmd_callback st.self.command_)).rpm.a0
          (h.getControl st.self.quad_
            (tick.msgs.foldl h.cmd_callback st.self.command_)).rpm.a1
          (h.getControl st.self.quad_
            (tick.msgs.foldl h.cmd_callback st.self.command_)).rpm.a2
          (h.getControl st.self.quad_
            (tick.msgs.foldl h.cmd_callback st.self.command_)).rpm.a3)
        st.simulation_dt := by
  by_cases hp : tick.tnow ≥ st.next_odom_pub_time
  · simp [iterate, hp]
  · simp [iterate, hp]

/-- The vehicle and the command after the loop are those of the specification's ticks,
folded over the passes. -/
theorem runLoop_vehicle (h : Hooks K T U) (sim : QuadrotorSimulatorBase K U)
    (ticks : List (Tick K T)) :
    ∀ st : LoopState K U, st.Consistent sim →
      ((runLoop h st ticks).1.self.quad_, (runLoop h st ticks).1.self.command_) =
        ticks.foldl (simulationTick h (1 / sim.simulation_rate_))
          (st.self.quad_, st.self.command_) := by
  induction ticks with
  | nil => intro st _; simp [runLoop]
  | cons tick rest ih =>
    intro st hst
    obtain ⟨hc, hq⟩ := iterate_vehicle h st tick
    have := ih _ (iterate_consistent h sim st tick hst)
    simp only [runLoop, List.foldl_cons]
    rw [this, hc, hq, hst.1]
    rfl

/-- The loop in numbers, from any consistent state. -/
theorem runLoop_counts (h : Hooks K T U) (sim : QuadrotorSimulatorBase K U)
    (ticks : List (Tick K T)) :
    ∀ st : LoopState K U, st.Consistent sim →
      stepCount (runLoop h st ticks).2 = ticks.length ∧
      (∀ dt, Event.step dt ∈ (runLoop h st ticks).2 → dt = 1 / sim.simulation_rate_) ∧
      publicationCount (runLoop h st ticks).2 ≤ ticks.length ∧
      (runLoop h st ticks).1.next_odom_pub_time =
        st.next_odom_pub_time +
          (publicationCount (runLoop h st ticks).2 : K) * (1 / sim.odom_rate_) := by
  induction ticks with
  | nil => intro st _; simp [runLoop, stepCount, publicationCount]
  | cons tick rest ih =>
    intro st hst
    obtain ⟨i1, i2, i3, i4⟩ := iterate_counts h st tick
    obtain ⟨r1, r2, r3, r4⟩ := ih _ (iterate_consistent h sim st tick hst)
    have hpub : publicationCount (iterate h st tick).2 ≤ 1 := by
      rw [i3]; split <;> omega
    simp only [runLoop, stepCount_append, publicationCount_append, List.length_cons,
      List.mem_append]
    refine ⟨by omega, ?_, by omega, ?_⟩
    · intro dt hdt
      rcases hdt with hdt | hdt
      · rw [i2 dt hdt, hst.1]
      · exact r2 dt hdt
    · rw [r4, i4, hst.2.1]
      push_cast
      ring

/-- C6: the publication cadence is accumulated.  In every pass of the loop, from every state
the loop reaches, a publication happens exactly when `tnow >= next_odom_pub_time`, and it
advances `next_odom_pub_time` by exactly `1 / odom_rate` (a pass without publication leaves
it unchanged); hence after any passes, whatever the clock readings were,
`next_odom_pub_time` is its initial value plus `1 / odom_rate` times the number of
publications so far. -/
theorem C6_publication_cadence (h : Hooks K T U) (sim : QuadrotorSimulatorBase K U) (t0 : K)
    (ticks : List (Tick K T)) :
    (∀ (pre : List (Tick K T)) (tick : Tick K T),
      (tick.tnow ≥ (run h sim t0 pre).1.next_odom_pub_time →
        publicationCount (iterate h (run h sim t0 pre).1 tick).2 = 1 ∧
        (iterate h (run h sim t0 pre).1 tick).1.next_odom_pub_time =
          (run h sim t0 pre).1.next_odom_pub_time + 1 / sim.odom_rate_) ∧
      (¬ tick.tnow ≥ (run h sim t0 pre).1.next_odom_pub_time →
        publicationCount (iterate h (run h sim t0 pre).1 tick).2 = 0 ∧
        (iterate h (run h sim t0 pre).1 tick).1.next_odom_pub_time =
          (run h sim t0 pre).1.next_odom_pub_time)) ∧
    (run h sim t0 ticks).1.next_odom_pub_time =
      t0 + (publicationCount (run h sim t0 ticks).2 : K) * (1 / sim.odom_rate_) := by
  constructor
  · intro pre tick
    have hc := run_consistent h sim t0 pre
    obtain ⟨-, -, i3, i4⟩ := iterate_counts h (run h sim t0 pre).1 tick
    constructor
    · intro hp
      rw [if_pos hp] at i3
      rw [i4, i3, hc.2.1]
      simp
    · intro hp
      rw [if_neg hp] at i3
      rw [i4, i3]
      simp
  · obtain ⟨-, -, -, r4⟩ := runLoop_counts h sim ticks _ (runInit_consistent h sim t0).1
    rw [(runInit_consistent h sim t0).2] at r4
    exact r4

/-- Witness of C6: with the default rates, clock readings `0, 1/1000, 5` starting from
`t0 = 0` give two publications (the first and the late third pass), and
`next_odom_pub_time` ends at `0 + 2 * (1/100)`, not at the last clock reading. -/
theorem C6_publication_cadence_witness :
    publicationCount
      (run sampleHooks sampleSim 0 [⟨[], 0⟩, ⟨[], 1 / 1000⟩, ⟨[], 5⟩]).2 = 2 ∧
    (run sampleHooks sampleSim 0 [⟨[], 0⟩, ⟨[], 1 / 1000⟩, ⟨[], 5⟩]).1.next_odom_pub_time
      = 1 / 50 := by
  have hcount : publicationCount
      (run sampleHooks sampleSim 0 [⟨[], 0⟩, ⟨[], 1 / 1000⟩, ⟨[], 5⟩]).2 = 2 := by
    norm_num [run, runLoop, runInit, iterate, publicationCount, sampleSim]
  refine ⟨hcount, ?_⟩
  rw [(C6_publication_cadence sampleHooks sampleSim 0 [⟨[], 0⟩, ⟨[], 1 / 1000⟩, ⟨[], 5⟩]).2,
    hcount]
  norm_num [sampleSim]

/-- C7: simulation ticks are never skipped.  Every pass of the loop, from every state the
loop reaches and whatever the clock reads, performs `getControl` on the latest command,
`setInput` with the rotor speeds the controller returned and `step(1 / simulation_rate)`,
once each, in this order and before anything is published; the vehicle after the pass is
the vehicle before it with exactly that input set and that one step applied; then at most
one publication follows, which happens exactly when the clock has reached
`next_odom_pub_time` (so a boundary missed earlier is served by the pass that finds it
reached, after that pass has made its step).  Hence `n` passes make exactly `n` steps, all
of size `1 / simulation_rate`, the vehicle and command after them are those of `n`
simulation ticks applied one after the other, and at most `n` publications are emitted. -/
theorem C7_ticks_never_skipped (h : Hooks K T U) (sim : QuadrotorSimulatorBase K U) (t0 : K)
    (ticks : List (Tick K T)) :
    (∀ (pre : List (Tick K T)) (tick : Tick K T),
      (run h sim t0 (pre ++ [tick])).2 =
        (run h sim t0 pre).2 ++ (iterate h (run h sim t0 pre).1 tick).2 ∧
      (run h sim t0 (pre ++ [tick])).1 = (iterate h (run h sim t0 pre).1 tick).1 ∧
      (iterate h (run h sim t0 pre).1 tick).1.self.command_ =
        tick.msgs.foldl h.cmd_callback (run h sim t0 pre).1.self.command_ ∧
      (iterate h (run h sim t0 pre).1 tick).1.self.quad_ =
        h.step
          (h.setInput (run h sim t0 pre).1.self.quad_
            (h.getControl (run h sim t0 pre).1.self.quad_
              (tick.msgs.foldl h.cmd_callback (run h sim t0 pre).1.self.command_)).rpm.a0
            (h.getControl (run h sim t0 pre).1.self.quad_
              (tick.msgs.foldl h.cmd_callback (run h sim t0 pre).1.self.command_)).rpm.a1
            (h.getControl (run h sim t0 pre).1.self.quad_
              (tick.msgs.foldl h.cmd_callback (run h sim t0 pre).1.self.command_)).rpm.a2
            (h.getControl (run h sim t0 pre).1.self.quad_
              (tick.msgs.foldl h.cmd_callback (run h sim t0 pre).1.self.command_)).rpm.a3)
          (1 / sim.simulation_rate_) ∧
      ∃ pubs : List (Event K U),
        (iterate h (run h sim t0 pre).1 tick).2 =
          [Event.getControl
              (tick.msgs.foldl h.cmd_callback (run h sim t0 pre).1.self.command_),
            Event.setInput
              (h.getControl (run h sim t0 pre).1.self.quad_
                (tick.msgs.foldl h.cmd_callback (run h sim t0 pre).1.self.command_)).rpm,
            Event.step (1 / sim.simulation_rate_)]
            ++ pubs ∧
        stepCount pubs = 0 ∧
        publicationCount pubs ≤ 1 ∧
        (publicationCount pubs = 1 ↔
          tick.tnow ≥ (run h sim t0 pre).1.next_odom_pub_time)) ∧
    stepCount (run h sim t0 ticks).2 = ticks.length ∧
    (∀ dt, Event.step dt ∈ (run h sim t0 ticks).2 → dt = 1 / sim.simulation_rate_) ∧
    ((run h sim t0 ticks).1.self.quad_, (run h sim t0 ticks).1.self.command_) =
      ticks.foldl (simulationTick h (1 / sim.simulation_rate_))
        (sim.quad_, h.cmd_callback sim.command_ h.emptyMsg) ∧
    publicationCount (run h sim t0 ticks).2 ≤ ticks.length := by
  obtain ⟨r1, r2, r3, -⟩ := runLoop_counts h sim ticks _ (runInit_consistent h sim t0).1
  have rv := runLoop_vehicle h sim ticks _ (runInit_consistent h sim t0).1
  refine ⟨fun pre tick => ⟨?_, ?_, ?_, ?_, ?_⟩, r1, r2, rv, r3⟩
  · simp [run, runLoop_append]
  · simp [run, runLoop_append]
  · exact (iterate_vehicle h (run h sim t0 pre).1 tick).1
  · rw [(iterate_vehicle h (run h sim t0 pre).1 tick).2, (run_consistent h sim t0 pre).1]
  · have hc := run_consistent h sim t0 pre
    by_cases hp : tick.tnow ≥ (run h sim t0 pre).1.next_odom_pub_time
    · obtain ⟨o, ts, i, d, hev, -⟩ := iterate_publishing h (run h sim t0 pre).1 tick hp
      refine ⟨[Event.publishOdom o, Event.sendTransform ts, Event.publishImu i,
          Event.publishOutputData d], ?_, by simp [stepCount], by simp [publicationCount], ?_⟩
      · rw [hev, hc.1]; rfl
      · simp [publicationCount, hp]
    · obtain ⟨hev, -⟩ := iterate_quiet h (run h sim t0 pre).1 tick hp
      refine ⟨[], ?_, by simp [stepCount], by simp [publicationCount], ?_⟩
      · rw [hev, hc.1]; rfl
      · simp [publicationCount, hp]

/-- Witness of C7: on the clock readings `0, 1/1000, 5` the sample simulator with the
tracking hooks makes three steps and at most three publications, and its vehicle ends
three steps of `1/1000` higher, at height `3/1000`, with the controller's rotor speeds
`(5, 6, 7, 8)` set. -/
theorem C7_ticks_never_skipped_witness :
    stepCount (run trackingHooks sampleSim 0 [⟨[], 0⟩, ⟨[], 1 / 1000⟩, ⟨[], 5⟩]).2 = 3 ∧
    publicationCount
      (run trackingHooks sampleSim 0 [⟨[], 0⟩, ⟨[], 1 / 1000⟩, ⟨[], 5⟩]).2 ≤ 3 ∧
    (run trackingHooks sampleSim 0
      [⟨[], 0⟩, ⟨[], 1 / 1000⟩, ⟨[], 5⟩]).1.self.quad_.state.x.z = 3 / 1000 ∧
    (run trackingHooks sampleSim 0
      [⟨[], 0⟩, ⟨[], 1 / 1000⟩, ⟨[], 5⟩]).1.self.quad_.state.motor_rpm = ⟨5, 6, 7, 8⟩ := by
  obtain ⟨-, h1, -, hv, h3⟩ :=
    C7_ticks_never_skipped trackingHooks sampleSim 0 [⟨[], 0⟩, ⟨[], 1 / 1000⟩, ⟨[], 5⟩]
  have hq := congrArg Prod.fst hv
  simp only at hq
  refine ⟨h1, h3, ?_, ?_⟩
  · rw [hq]
    norm_num [simulationTick, trackingHooks, sampleSim, sampleQuad, Quadrotor.withHeight]
  · rw [hq]
    norm_num [simulationTick, trackingHooks, sampleSim, sampleQuad, Quadrotor.withHeight]

/-- C9, as stated, fails: in the first pass of the sample simulator (frames `"simulator"`
and `"quadrotor"`, clock at the boundary) the inertial-measurement record is emitted with
the vehicle name as its only frame identifier, so not every emitted record carries the
world frame identifier. -/
theorem C9_counterexample :
    (⟨[], 0⟩ : Tick ℚ Unit).tnow ≥ (run sampleHooks sampleSim 0 []).1.next_odom_pub_time ∧
    ¬ ∀ e ∈ (iterate sampleHooks (run sampleHooks sampleSim 0 []).1 ⟨[], 0⟩).2,
        e.isRecord = true →
          sampleSim.world_frame_id_ ∈ e.frameIds ∧ sampleSim.quad_name_ ∈ e.frameIds := by
  have hp : (⟨[], 0⟩ : Tick ℚ Unit).tnow ≥
      (run sampleHooks sampleSim 0 []).1.next_odom_pub_time := by
    simp [run, runLoop, runInit]
  refine ⟨hp, fun hall => ?_⟩
  obtain ⟨o, ts, i, d, hev, -, -, -, -, -, -, -, -, hi, -⟩ :=
    iterate_publishing sampleHooks (run sampleHooks sampleSim 0 []).1 ⟨[], 0⟩ hp
  have hmem : Event.publishImu i ∈
      (iterate sampleHooks (run sampleHooks sampleSim 0 []).1 ⟨[], 0⟩).2 := by
    rw [hev]; simp
  have hbad := (hall _ hmem rfl).1
  have hframe : i.header.frame_id = "quadrotor" := by
    rw [hi]; rfl
  simp [Event.frameIds, hframe, sampleSim] at hbad

/-- C9 (amended): at every publication-boundary crossing (a pass, from any state the loop
reaches, whose clock reading `tnow` has reached `next_odom_pub_time`) exactly four records
are emitted, odometry, transform, inertial measurement and extended output, and each
carries the time stamp `tnow`; the odometry record and the transform carry the configured
world frame id as header frame and the configured vehicle name as child frame; the
inertial measurement and the extended output carry the configured vehicle name as header
frame (they carry no world frame id). -/
theorem C9_telemetry_headers (h : Hooks K T U) (sim : QuadrotorSimulatorBase K U) (t0 : K)
    (pre : List (Tick K T)) (tick : Tick K T)
    (hp : tick.tnow ≥ (run h sim t0 pre).1.next_odom_pub_time) :
    ∃ (c : U) (rpm : Array4 K) (dt : K) (o : Odometry K) (ts : TransformStamped K)
      (i : Imu K) (d : OutputData K),
      (iterate h (run h sim t0 pre).1 tick).2 =
        [Event.getControl c, Event.setInput rpm, Event.step dt,
          Event.publishOdom o, Event.sendTransform ts, Event.publishImu i,
          Event.publishOutputData d] ∧
      o.header.stamp = tick.tnow ∧ ts.header.stamp = tick.tnow ∧
      i.header.stamp = tick.tnow ∧ d.header.stamp = tick.tnow ∧
      (Event.publishOdom o : Event K U).frameIds = [sim.world_frame_id_, sim.quad_name_] ∧
      (Event.sendTransform ts : Event K U).frameIds = [sim.world_frame_id_, sim.quad_name_] ∧
      (Event.publishImu i : Event K U).frameIds = [sim.quad_name_] ∧
      (Event.publishOutputData d : Event K U).frameIds = [sim.quad_name_] := by
  obtain ⟨-, -, c3, c4, c5, c6⟩ := run_consistent h sim t0 pre
  obtain ⟨o, ts, i, d, hev, -, o1, o2, o3, t1, t2, t3, i1, i2, d1, d2⟩ :=
    iterate_publishing h (run h sim t0 pre).1 tick hp
  refine ⟨_, _, _, o, ts, i, d, hev, o1, t1, i1, d1, ?_, ?_, ?_, ?_⟩
  · simp [Event.frameIds, o2, o3, c3, c4]
  · simp [Event.frameIds, t2, t3, c3, c4]
  · simp [Event.frameIds, i2, c5]
  · simp [Event.frameIds, d2, c6]

/-- Witness of C9 (amended): the first pass of the sample simulator, with the clock at the
boundary, emits its four records stamped with that clock reading. -/
theorem C9_telemetry_headers_witness :
    (⟨[], 0⟩ : Tick ℚ Unit).tnow ≥ (run sampleHooks sampleSim 0 []).1.next_odom_pub_time ∧
    ∃ (o : Odometry ℚ) (i : Imu ℚ),
      Event.publishOdom o ∈ (iterate sampleHooks (run sampleHooks sampleSim 0 []).1 ⟨[], 0⟩).2 ∧
      Event.publishImu i ∈ (iterate sampleHooks (run sampleHooks sampleSim 0 []).1 ⟨[], 0⟩).2 ∧
      o.header.stamp = 0 ∧
      (Event.publishOdom o : Event ℚ Unit).frameIds = ["simulator", "quadrotor"] ∧
      (Event.publishImu i : Event ℚ Unit).frameIds = ["quadrotor"] := by
  have hp : (⟨[], 0⟩ : Tick ℚ Unit).tnow ≥
      (run sampleHooks sampleSim 0 []).1.next_odom_pub_time := by
    simp [run, runLoop, runInit]
  obtain ⟨c, rpm, dt, o, ts, i, d, hev, o1, -, -, -, fo, -, fi, -⟩ :=
    C9_telemetry_headers sampleHooks sampleSim 0 [] ⟨[], 0⟩ hp
  refine ⟨hp, o, i, ?_, ?_, o1, fo, fi⟩
  · rw [hev]; simp
  · rw [hev]; simp

end RunTheorems

end QuadrotorSimulator
